import Mathlib

/-!
Verification development for the StructNoSQL schema compiler, path renderer,
recursive validator and table-facing request API.

The definitions below are shallow embeddings of the Python source:
  * `src/StructNoSQL/dynamodb/models.py` (DatabasePathElement and request records),
  * `src/StructNoSQL/table.py`           (FieldsSwitch, BaseTable.put_record,
                                          BaseTable.remove_multiple_items_at_path_targets,
                                          assign_internal_mapping_from_class),
  * `src/StructNoSQL/fields.py`          (BaseField / MapField / MapItem construction),
  * `src/structnosql/fields.py`          (BaseItem.query rendering loop),
  * `src/structnosql/validator.py`       (validate_data).

Python strings are embedded as Lean `String`; the operations the source relies
on (`in`-containment and `str.replace`) are given explicit, kernel-computable
definitions over the character list. Python dictionaries that carry data are
embedded as ordered association lists, matching CPython's insertion-order
semantics, with `__setitem__` replacing an existing key in place.
-/

/-! ## String primitives used by the source -/

/-- Returns true when `pat` is a prefix of the first list (helper for the
embeddings of Python's `in` and `str.replace`). -/
def listStartsWith : List Char → List Char → Bool
  | _, [] => true
  | [], _ :: _ => false
  | c :: cs, p :: ps => c == p && listStartsWith cs ps

/-- Implements Python's `str.replace` (leftmost, non-overlapping, replace all)
on character lists. The fuel argument is instantiated with the subject length,
which suffices because each step consumes at least one character. -/
def listReplaceAux (pat rep : List Char) : Nat → List Char → List Char
  | 0, l => l
  | _ + 1, [] => []
  | f + 1, c :: cs =>
    if listStartsWith (c :: cs) pat && !pat.isEmpty then
      rep ++ listReplaceAux pat rep f ((c :: cs).drop pat.length)
    else
      c :: listReplaceAux pat rep f cs

/-- Embedding of Python's `s.replace(pat, rep)` for nonempty `pat`. -/
def strReplace (s pat rep : String) : String :=
  ⟨listReplaceAux pat.data rep.data s.data.length s.data⟩

/-- Embedding of Python's substring containment `pat in s` (helper). -/
def listContainsSub (pat : List Char) : List Char → Bool
  | [] => pat.isEmpty
  | c :: cs => listStartsWith (c :: cs) pat || listContainsSub pat cs

/-- Embedding of Python's substring containment test `pat in s`. -/
def strContainsSub (s pat : String) : Bool := listContainsSub pat.data s.data

/-! ## Python runtime values and types -/

/-- Semantic tags for the Python types the schemas under study use
(`str`, `int`, `bool`, `float`, `dict`, `list`, `NoneType` and `typing.Any`). -/
inductive PyType where
  | pstr
  | pint
  | pbool
  | pfloat
  | pdict
  | plist
  | pnone
  | pAny
deriving DecidableEq, Repr

mutual
/-- Runtime Python value trees handled by the validator. Dictionaries are
embedded with string keys (the document store under study only addresses
string-keyed maps) and insertion order preserved. -/
inductive PyValue where
  | vnone
  | vbool (b : Bool)
  | vint (n : Int)
  | vstr (s : String)
  | vfloat0
  | vlist (items : PyList)
  | vdict (entries : PyDict)
deriving DecidableEq, Repr
/-- Spine of a Python list value. -/
inductive PyList where
  | nil
  | cons (v : PyValue) (rest : PyList)
deriving DecidableEq, Repr
/-- Spine of a Python dict value: ordered key/value entries. -/
inductive PyDict where
  | nil
  | cons (key : String) (val : PyValue) (rest : PyDict)
deriving DecidableEq, Repr
end

/-- Embedding of Python's `type(value)` as used by `_types_match`.
`vfloat0` is an inhabitant standing for any float literal (the claims under
study never inspect float payloads, only the runtime type tag). -/
def pyTypeOf : PyValue → PyType
  | .vnone => .pnone
  | .vbool _ => .pbool
  | .vint _ => .pint
  | .vstr _ => .pstr
  | .vfloat0 => .pfloat
  | .vlist _ => .plist
  | .vdict _ => .pdict

/-! ## DatabasePathElement (src/StructNoSQL/dynamodb/models.py) -/

/-- Shallow embedding of the dataclass `DatabasePathElement`. -/
structure DatabasePathElement where
  element_key : String
  default_type : PyType
  custom_default_value : Option PyValue := none
deriving DecidableEq, Repr

/-! ## Path rendering (src/structnosql/fields.py, BaseItem.query, lines 81-97)

The Python loop walks `self._database_path`; for each element whose
`element_key` contains `"$key$:"` it resolves the variable name against
`query_kwargs` and assigns `path_element.element_key = matching_kwarg`
IN PLACE, raising when the kwarg is missing or when no kwargs were passed.
The embedding returns the post-loop state of the shared chain together with
the raised error, if any: on an error the loop aborts, leaving elements
after (and including) the offending one untouched. -/

/-- Errors raised by the rendering loop. Both `raise` sites in the source
put the placeholder's variable name into the message's vars_dict under
`keyVariableName`; the embedding keeps that name structurally. -/
inductive QueryError where
  | missingKwarg (keyVariableName : String)
  | noKwargs (keyVariableName : String)
deriving DecidableEq, Repr

/-- Association-list lookup, embedding Python's `dict.get(k, None)`. -/
def assocGet : List (String × String) → String → Option String
  | [], _ => none
  | (k, v) :: rest, s => if k = s then some v else assocGet rest s

/-- Embedding of the loop's test `"$key$:" in path_element.element_key`. -/
def isPlaceholderElement (e : DatabasePathElement) : Bool :=
  strContainsSub e.element_key "$key$:"

/-- Embedding of `path_element.element_key.replace("$key$:", "")`. -/
def placeholderVariableName (e : DatabasePathElement) : String :=
  strReplace e.element_key "$key$:" ""

/-- Embedding of the rendering loop of `BaseItem.query`: returns the
post-mutation state of `self._database_path` and the raised error, if any. -/
def query_render_loop (query_kwargs : Option (List (String × String))) :
    List DatabasePathElement → List DatabasePathElement × Option QueryError
  | [] => ([], none)
  | e :: rest =>
    if isPlaceholderElement e then
      let variable_name := placeholderVariableName e
      match query_kwargs with
      | some kwargs =>
        match assocGet kwargs variable_name with
        | some matching_kwarg =>
          let r := query_render_loop query_kwargs rest
          ({ e with element_key := matching_kwarg } :: r.1, r.2)
        | none => (e :: rest, some (.missingKwarg variable_name))
      | none => (e :: rest, some (.noKwargs variable_name))
    else
      let r := query_render_loop query_kwargs rest
      (e :: r.1, r.2)

/-- Lookup into an optional kwargs mapping (`query_kwargs` may be `None`). -/
def kwargsGet (query_kwargs : Option (List (String × String))) (v : String) :
    Option String :=
  match query_kwargs with
  | none => none
  | some kwargs => assocGet kwargs v

/-- Specification-side description of rendering one element, following the
spec's words: a placeholder element gets the looked-up literal value, every
other element passes through unchanged. Used to compare the source's loop
against the spec in the rendering claims. -/
def spec_rendered_element (query_kwargs : Option (List (String × String)))
    (e : DatabasePathElement) : DatabasePathElement :=
  if isPlaceholderElement e then
    { e with element_key :=
        (kwargsGet query_kwargs (placeholderVariableName e)).getD e.element_key }
  else
    e

/-! ## Schema declarations (src/StructNoSQL/fields.py)

A table model class is a Python class whose `__dict__` maps attribute names to
`BaseField` / `MapField` instances (other members are ignored by the walker
and are left out of the embedding). A `BaseField` whose `field_type` is a
`typing.Dict[K, V]` alias has `_field_type = _default_field_type = dict`,
`_dict_key_expected_type = K` and `_dict_items_excepted_type = V`; its
`key_name` is the declared one, or `f"{name}Key"` by default. The embedding
stores the resolved key name. The constructors split on whether the `Dict`
value type is a primitive or a `MapModel` subclass, which is how the source
discriminates them (`_default_primitive_type` / `PRIMITIVE_TYPES`). Each
field carries its class-level mutable `_database_path` slot, which the walker
`assign_internal_mapping_from_class` assigns; the slot a declaration starts
with is whatever an earlier compilation left there (`none` for a fresh
class). -/

mutual
/-- Shallow embedding of one declared field (a `BaseField`, a dict-typed
`BaseField`, or a `MapField`), together with its mutable `_database_path`
class slot. -/
inductive FieldDecl where
  | plainField (name : String) (ftype : PyType) (required : Bool)
      (customDefault : Option PyValue) (slot : Option (List DatabasePathElement))
  | dictFieldPrim (name : String) (keyType itemType : PyType) (required : Bool)
      (keyName : String) (maxNested : Nat) (customDefault : Option PyValue)
      (slot : Option (List DatabasePathElement))
  | dictFieldModel (name : String) (keyType : PyType) (model : ClassVars) (required : Bool)
      (keyName : String) (maxNested : Nat) (customDefault : Option PyValue)
      (slot : Option (List DatabasePathElement))
  | mapFieldDecl (name : String) (model : ClassVars)
      (slot : Option (List DatabasePathElement))
deriving DecidableEq, Repr
/-- Ordered `__dict__` of a model class: attribute key paired with the
declared field. -/
inductive ClassVars where
  | nil
  | cons (varKey : String) (decl : FieldDecl) (rest : ClassVars)
deriving DecidableEq, Repr
end

/-- Embedding of `make_dict_key_var_name` (src/StructNoSQL/table.py line 252). -/
def make_dict_key_var_name (key_name : String) : String := "$key$:" ++ key_name

/-- Zero value `T()` of a Python type, used by `MapItem.__init__` for its
`custom_default_value=field_type()` argument (always called with a concrete
type there). -/
def pyZeroValue : PyType → PyValue
  | .pstr => .vstr ""
  | .pint => .vint 0
  | .pbool => .vbool false
  | .pfloat => .vfloat0
  | .pdict => .vdict .nil
  | .plist => .vlist .nil
  | .pnone => .vnone
  | .pAny => .vnone

/-! ## The path registry (FieldsSwitch, src/StructNoSQL/table.py lines 21-32) -/

/-- Snapshot of a field stored in the registry: `FieldsSwitch.set` stores
`copy(variable_item)`, whose observable parts for the path machinery are the
field name (`None` for a `MapItem`), the `required` flag, the assigned
database path chain and the custom default value. -/
structure RegEntry where
  name : Option String
  required : Bool
  database_path : List DatabasePathElement
  custom_default_value : Option PyValue
deriving DecidableEq, Repr

/-- Ordered association list embedding the `FieldsSwitch` dict. -/
abbrev Registry := List (String × RegEntry)

/-- Embedding of CPython's `dict.__setitem__`: replaces an existing key in
place, otherwise appends in insertion order. -/
def dictSetItem : Registry → String → RegEntry → Registry
  | [], k, it => [(k, it)]
  | (k', it') :: rest, k, it =>
    if k' = k then (k, it) :: rest else (k', it') :: dictSetItem rest k it

/-- Embedding of `FieldsSwitch.set`: a chain longer than 32 elements is
rejected (the registry is returned unchanged and `False` is reported),
otherwise the entry is stored and `True` is reported. -/
def fields_switch_set (switch : Registry) (key : String) (item : RegEntry) :
    Registry × Bool :=
  if item.database_path.length > 32 then
    (switch, false)
  else
    (dictSetItem switch key item, true)

/-! ## The schema compiler (assign_internal_mapping_from_class,
src/StructNoSQL/table.py lines 265-414)

The walker is embedded as a single fuel-indexed function over a call
descriptor: mode `vars` walks a class `__dict__` (the loop over
`class_variables.items()`), modes `unrollPrim` / `unrollModel` run the
`for i in range(variable_item.max_nested)` loop of the `"{i}"` branch
(lines 356-390). Fuel decreases on every recursive call; an exhausted call
returns its registry and class state untouched (the concrete theorems below
always supply sufficient fuel). The function returns the table's
`fields_switch` and the class tree with the `_database_path` slots the walk
assigned, embedding the source's class-level mutation. -/

/-- Call descriptor for the embedded walker. -/
inductive CompileCall where
  | vars (vs : ClassVars) (nested_field_path : Option String)
      (current_path_elements : List DatabasePathElement) (is_nested : Bool)
      (reg : Registry)
  | unrollPrim (field_name key_name : String) (item_type : PyType)
      (customDefault : Option PyValue) (cnfp : String)
      (cndp : List DatabasePathElement) (i remaining : Nat) (reg : Registry)
  | unrollModel (field_name key_name : String) (model : ClassVars)
      (customDefault : Option PyValue) (cnfp : String)
      (cndp : List DatabasePathElement) (i remaining : Nat) (reg : Registry)

/-- Registry carried by a call descriptor. -/
def CompileCall.regOf : CompileCall → Registry
  | .vars _ _ _ _ reg => reg
  | .unrollPrim _ _ _ _ _ _ _ _ reg => reg
  | .unrollModel _ _ _ _ _ _ _ _ reg => reg

/-- Class state carried by a call descriptor (the class `__dict__` being
walked, or the nested model class the unroll loop recurses into). -/
def CompileCall.varsOf : CompileCall → ClassVars
  | .vars vs _ _ _ _ => vs
  | .unrollPrim _ _ _ _ _ _ _ _ _ => .nil
  | .unrollModel _ _ m _ _ _ _ _ _ => m

/-- Embedding of the source's `current_field_path` construction: start from
the nested prefix (empty when `None`) and append the field name, dotted when
the prefix is nonempty. -/
def joinFieldPath (nested_field_path : Option String) (name : String) : String :=
  let base := nested_field_path.getD ""
  if base.length == 0 then name else base ++ "." ++ name

/-- Embedded walker; see the section comment for the mode protocol. -/
def compileAux : Nat → CompileCall → Registry × ClassVars
  | 0, call => (call.regOf, call.varsOf)
  | _ + 1, .vars .nil _ _ _ reg => (reg, .nil)
  | f + 1, .vars (.cons vk d rest) n c iN reg =>
    let step : Registry × FieldDecl :=
      match d with
      | .plainField name t req cd _ =>
        let dbPath := c ++ [⟨name, t, cd⟩]
        let regA := (fields_switch_set reg (joinFieldPath n name)
          ⟨some name, req, dbPath, cd⟩).1
        (regA, FieldDecl.plainField name t req cd (some dbPath))
      | .dictFieldPrim name kt it req kn mx cd _ =>
        let dbPath := c ++ [⟨name, .pdict, cd⟩]
        let path := joinFieldPath n name
        let setRes := fields_switch_set reg path ⟨some name, req, dbPath, cd⟩
        let regB :=
          if setRes.2 then
            if strContainsSub kn "\x7bi\x7d" then
              if !iN then
                (compileAux f (.unrollPrim name kn it cd (n.getD "") dbPath 0 mx setRes.1)).1
              else setRes.1
            else
              let mapEntry : RegEntry :=
                ⟨none, false, dbPath ++ [⟨make_dict_key_var_name kn, it, none⟩],
                  some (pyZeroValue it)⟩
              (fields_switch_set setRes.1 (path ++ ".\x7b\x7b" ++ kn ++ "\x7d\x7d") mapEntry).1
          else setRes.1
        (regB, FieldDecl.dictFieldPrim name kt it req kn mx cd (some dbPath))
      | .dictFieldModel name kt m req kn mx cd _ =>
        let dbPath := c ++ [⟨name, .pdict, cd⟩]
        let path := joinFieldPath n name
        let setRes := fields_switch_set reg path ⟨some name, req, dbPath, cd⟩
        let recRes :=
          if setRes.2 then
            if strContainsSub kn "\x7bi\x7d" then
              if !iN then
                compileAux f (.unrollModel name kn m cd (n.getD "") dbPath 0 mx setRes.1)
              else (setRes.1, m)
            else
              let path2 := path ++ ".\x7b\x7b" ++ kn ++ "\x7d\x7d"
              let itemElem : DatabasePathElement := ⟨make_dict_key_var_name kn, .pdict, none⟩
              let mapEntry : RegEntry := ⟨none, false, dbPath ++ [itemElem], some (.vdict .nil)⟩
              let setRes2 := fields_switch_set setRes.1 path2 mapEntry
              if setRes2.2 then
                compileAux f (.vars m (some path2) (dbPath ++ [itemElem]) false setRes2.1)
              else (setRes2.1, m)
          else (setRes.1, m)
        (recRes.1, FieldDecl.dictFieldModel name kt recRes.2 req kn mx cd (some dbPath))
      | .mapFieldDecl name m _ =>
        let dbPath := c ++ [⟨name, .pdict, none⟩]
        let path := joinFieldPath n name
        let setRes := fields_switch_set reg path ⟨some name, false, dbPath, none⟩
        let recRes :=
          if setRes.2 then compileAux f (.vars m (some path) dbPath false setRes.1)
          else (setRes.1, m)
        (recRes.1, FieldDecl.mapFieldDecl name recRes.2 (some dbPath))
    let restRes := compileAux f (.vars rest n c iN step.1)
    (restRes.1, ClassVars.cons vk step.2 restRes.2)
  | _ + 1, .unrollPrim _ _ _ _ _ _ _ 0 reg => (reg, .nil)
  | f + 1, .unrollPrim name kn it cd cnfp cndp i (r + 1) reg =>
    let rendered := strReplace kn "\x7bi\x7d" (toString i)
    let mapEntry : RegEntry :=
      ⟨none, false, cndp ++ [⟨make_dict_key_var_name kn, it, none⟩], some (.vdict .nil)⟩
    let cnfp' := cnfp ++ "." ++ name ++ ".\x7b\x7b" ++ rendered ++ "\x7d\x7d"
    let cndp' := cndp ++ [⟨make_dict_key_var_name rendered, .pdict, cd⟩]
    let reg1 := (fields_switch_set reg cnfp' mapEntry).1
    let cndp2 := cndp' ++ [⟨name, .pdict, cd⟩]
    compileAux f (.unrollPrim name kn it cd cnfp' cndp2 (i + 1) r reg1)
  | _ + 1, .unrollModel _ _ m _ _ _ _ 0 reg => (reg, m)
  | f + 1, .unrollModel name kn m cd cnfp cndp i (r + 1) reg =>
    let rendered := strReplace kn "\x7bi\x7d" (toString i)
    let mapEntry : RegEntry :=
      ⟨none, false, cndp ++ [⟨make_dict_key_var_name kn, .pdict, none⟩], some (.vdict .nil)⟩
    let cnfp' := cnfp ++ "." ++ name ++ ".\x7b\x7b" ++ rendered ++ "\x7d\x7d"
    let cndp' := cndp ++ [⟨make_dict_key_var_name rendered, .pdict, cd⟩]
    let setRes := fields_switch_set reg cnfp' mapEntry
    let recRes :=
      if setRes.2 then compileAux f (.vars m (some cnfp') cndp' true setRes.1)
      else (setRes.1, m)
    let cndp2 := cndp' ++ [⟨name, .pdict, cd⟩]
    compileAux f (.unrollModel name kn recRes.2 cd cnfp' cndp2 (i + 1) r recRes.1)

/-- Embedding of a table construction's compilation step: `BaseTable.__init__`
creates a fresh empty `FieldsSwitch` and calls
`assign_internal_mapping_from_class(table, class_instance=model)` with no
prefix. Returns the table's registry and the class tree with its assigned
`_database_path` slots. -/
def assign_internal_mapping_from_class (fuel : Nat) (model : ClassVars) :
    Registry × ClassVars :=
  compileAux fuel (.vars model none [] false [])

/-! ## The recursive validator (src/structnosql/validator.py, validate_data)

The validator imports its field objects from `StructNoSQL.fields` (the
capitalised package), so member lookups below run over the same `FieldDecl`
embedding as the compiler. The embedding fixes `load_data_into_objects=False`
(the `field_load` paths are dead under that flag) and `list_items_models=None`
(no caller in the source passes it), and covers string-keyed data dicts; a
class `__dict__` lookup with a key that is not a declared field name returns
`None`, which the `map_model` branch turns into the
`"No map validator was found."` exception and the nested-item branch turns
into a dropped entry. `validate_data` returns the cleaned value or `None`;
exceptions are the `Except.error` results. Fuel exhaustion is reported as a
distinguished error, never as a regular result. -/

/-- Python `field.field_type` of an embedded field (after `BaseItem.__init__`
rewrote a `Dict[...]` alias to `dict`; a `MapField` also carries `dict`). -/
def declFieldType : FieldDecl → PyType
  | .plainField _ t _ _ _ => t
  | .dictFieldPrim _ _ _ _ _ _ _ _ => .pdict
  | .dictFieldModel _ _ _ _ _ _ _ _ => .pdict
  | .mapFieldDecl _ _ _ => .pdict

/-- Python `field.map_model`: set only on `MapField` instances. -/
def declMapModel : FieldDecl → Option ClassVars
  | .mapFieldDecl _ m _ => some m
  | _ => none

/-- Python `field.required` (a `MapField` never sets it, so it is `False`). -/
def declRequired : FieldDecl → Bool
  | .plainField _ _ req _ _ => req
  | .dictFieldPrim _ _ _ req _ _ _ _ => req
  | .dictFieldModel _ _ _ req _ _ _ _ => req
  | .mapFieldDecl _ _ _ => false

/-- Embedding of `map_model.__dict__.get(key, None)`. -/
def lookupMember : ClassVars → String → Option FieldDecl
  | .nil, _ => none
  | .cons k d rest, s => if k = s then some d else lookupMember rest s

/-- Embedding of `_types_match` (exact runtime type equality). -/
def types_match (type_to_check expected_type : PyType) : Bool :=
  type_to_check == expected_type

/-- The `dict_value_excepted_type` argument: either a `MapModel` subclass
(the source tests `MapModel in dict_value_excepted_type.__bases__`) or a
primitive type. -/
inductive DictValueExpected where
  | dmodel (m : ClassVars)
  | dprim (t : PyType)
deriving DecidableEq, Repr

/-- Exceptions escaping `validate_data`, plus the fuel sentinel of the
embedding. -/
inductive ValidError where
  | noMapValidator
  | outOfFuel
  | internalError
deriving DecidableEq, Repr

/-- Embedding of the keyed-collection branch's key type check on one entry
(lines 72-79): with all embedded data keys being strings, `type(key)` is
`str`, and the entry is dropped exactly when a declared key type differs. -/
def collKeyTypeMismatch (dict_excepted_key_type : Option PyType) : Bool :=
  match dict_excepted_key_type with
  | some t => !(types_match .pstr t)
  | none => false

/-- Call descriptor for the embedded validator: the `value` mode is a
`validate_data` call; the three entry modes are its `for` loops over a data
dict's items (`map_model` branch, keyed-collection branch, and the nested
item loop of the keyed-collection branch). -/
inductive ValidateCall where
  | value (value : PyValue) (expected_value_type : PyType)
      (item_map_model : Option ClassVars) (dict_excepted_key_type : Option PyType)
      (dict_value_excepted_type : Option DictValueExpected)
  | mapEntries (model : ClassVars) (entries : PyDict)
  | collEntries (dict_excepted_key_type : Option PyType)
      (dict_value_excepted_type : Option DictValueExpected) (entries : PyDict)
  | elemEntries (model : ClassVars) (entries : PyDict)

/-- Result carrier of the embedded validator: a cleaned value (or `None`) for
the `value` mode; surviving entries for the loop modes, where the nested item
loop reports `none` when a required mismatch broke the loop (the containing
key is then popped from the outer dict). -/
inductive ValidateRes where
  | rValue (r : Option PyValue)
  | rEntries (kept : PyDict)
  | rElems (r : Option PyDict)
deriving DecidableEq, Repr

/-- Embedded validator; see the section comment for the mode protocol. -/
def validateAux : Nat → ValidateCall → Except ValidError ValidateRes
  | 0, _ => .error .outOfFuel
  | f + 1, .value value expected imm kt dve =>
    if !(types_match (pyTypeOf value) expected) then
      .ok (.rValue none)
    else
      match value with
      | .vdict entries =>
        match imm with
        | some model =>
          match validateAux f (.mapEntries model entries) with
          | .ok (.rEntries kept) => .ok (.rValue (some (.vdict kept)))
          | .ok _ => .error .internalError
          | .error e => .error e
        | none =>
          match validateAux f (.collEntries kt dve entries) with
          | .ok (.rEntries kept) => .ok (.rValue (some (.vdict kept)))
          | .ok _ => .error .internalError
          | .error e => .error e
      | v => .ok (.rValue (some v))
  | _ + 1, .mapEntries _ .nil => .ok (.rEntries .nil)
  | f + 1, .mapEntries model (.cons k v rest) =>
    match lookupMember model k with
    | some fld =>
      match validateAux f (.value v (declFieldType fld) (declMapModel fld) none none) with
      | .ok (.rValue r) =>
        match validateAux f (.mapEntries model rest) with
        | .ok (.rEntries kept) =>
          match r with
          | some v' => .ok (.rEntries (.cons k v' kept))
          | none => .ok (.rEntries kept)
        | .ok _ => .error .internalError
        | .error e => .error e
      | .ok _ => .error .internalError
      | .error e => .error e
    | none => .error .noMapValidator
  | _ + 1, .collEntries _ _ .nil => .ok (.rEntries .nil)
  | f + 1, .collEntries kt dve (.cons k v rest) =>
    if collKeyTypeMismatch kt then
      validateAux f (.collEntries kt dve rest)
    else
      match dve with
      | some (.dmodel m) =>
        match v with
        | .vdict elems =>
          match validateAux f (.elemEntries m elems) with
          | .ok (.rElems r) =>
            match validateAux f (.collEntries kt dve rest) with
            | .ok (.rEntries rest') =>
              match r with
              | some keptElems => .ok (.rEntries (.cons k (.vdict keptElems) rest'))
              | none => .ok (.rEntries rest')
            | .ok _ => .error .internalError
            | .error e => .error e
          | .ok _ => .error .internalError
          | .error e => .error e
        | _ => validateAux f (.collEntries kt dve rest)
      | some (.dprim t) =>
        match validateAux f (.collEntries kt dve rest) with
        | .ok (.rEntries rest') =>
          if types_match (pyTypeOf v) t then .ok (.rEntries (.cons k v rest'))
          else .ok (.rEntries rest')
        | .ok _ => .error .internalError
        | .error e => .error e
      | none =>
        match validateAux f (.collEntries kt dve rest) with
        | .ok (.rEntries rest') => .ok (.rEntries (.cons k v rest'))
        | .ok _ => .error .internalError
        | .error e => .error e
  | _ + 1, .elemEntries _ .nil => .ok (.rElems (some .nil))
  | f + 1, .elemEntries m (.cons ek ev rest) =>
    match lookupMember m ek with
    | some fld =>
      match validateAux f (.value ev (declFieldType fld) (declMapModel fld) none none) with
      | .ok (.rValue (some ev')) =>
        match validateAux f (.elemEntries m rest) with
        | .ok (.rElems (some kept)) => .ok (.rElems (some (.cons ek ev' kept)))
        | .ok (.rElems none) => .ok (.rElems none)
        | .ok _ => .error .internalError
        | .error e => .error e
      | .ok (.rValue none) =>
        if declRequired fld == false then
          validateAux f (.elemEntries m rest)
        else
          .ok (.rElems none)
      | .ok _ => .error .internalError
      | .error e => .error e
    | none => validateAux f (.elemEntries m rest)

/-- Embedding of the `validate_data` entry point (cleaned value or `None`). -/
def validate_data (fuel : Nat) (value : PyValue) (expected_value_type : PyType)
    (item_map_model : Option ClassVars) (dict_excepted_key_type : Option PyType)
    (dict_value_excepted_type : Option DictValueExpected) :
    Except ValidError (Option PyValue) :=
  match validateAux fuel
      (.value value expected_value_type item_map_model dict_excepted_key_type
        dict_value_excepted_type) with
  | .ok (.rValue r) => .ok r
  | .ok _ => .error .internalError
  | .error e => .error e

/-- Projection of the nested item loop of the keyed-collection branch
(lines 94-120): the surviving entries of one collection item, or `none` when
a required mismatch broke the loop. -/
def validate_elem_entries (fuel : Nat) (model : ClassVars) (entries : PyDict) :
    Except ValidError (Option PyDict) :=
  match validateAux fuel (.elemEntries model entries) with
  | .ok (.rElems r) => .ok r
  | .ok _ => .error .internalError
  | .error e => .error e

/-- Projection of the keyed-collection branch loop (lines 70-131). -/
def validate_coll_entries (fuel : Nat) (dict_excepted_key_type : Option PyType)
    (dict_value_excepted_type : Option DictValueExpected) (entries : PyDict) :
    Except ValidError PyDict :=
  match validateAux fuel (.collEntries dict_excepted_key_type dict_value_excepted_type entries) with
  | .ok (.rEntries kept) => .ok kept
  | .ok _ => .error .internalError
  | .error e => .error e

/-- Projection of the `map_model` branch loop (lines 47-64). -/
def validate_map_entries (fuel : Nat) (model : ClassVars) (entries : PyDict) :
    Except ValidError PyDict :=
  match validateAux fuel (.mapEntries model entries) with
  | .ok (.rEntries kept) => .ok kept
  | .ok _ => .error .internalError
  | .error e => .error e

/-! ## Table-facing request API (src/StructNoSQL/table.py)

The document-store client (`DynamoDbCoreAdapter`) is an external collaborator;
the embeddings below parameterise over it and record every request the table
method forwards to it, so the theorems can talk about which requests were (or
were not) issued. The uppercase package's validator module is likewise
external to the sources under study; `put_record` therefore takes the
validation outcome function `(validated_data, is_valid)` as a parameter,
exactly the tuple interface `BaseItem.validate_data` exposes at the call
site. -/

/-- Requests a table method can forward to the document-store client. -/
inductive StoreRequest where
  | putRecord (item_dict : Option PyValue)
  | removeDataElements (targets_path_elements : List (List DatabasePathElement))
deriving DecidableEq, Repr

/-- Embedding of `BaseTable.put_record` (lines 72-78): populate the virtual
map field with the record, validate, and either forward the validated data to
`dynamodb_client.put_record` or return `False` without issuing any request.
The second component is the list of store requests issued. -/
def put_record (validate : Option PyValue → Option PyValue × Bool)
    (client_put_record : Option PyValue → Bool) (record_dict_data : PyValue) :
    Bool × List StoreRequest :=
  let populated_value : Option PyValue := some record_dict_data
  let validation_result := validate populated_value
  let validated_data := validation_result.1
  let is_valid := validation_result.2
  if is_valid = true then
    (client_put_record validated_data, [.putRecord validated_data])
  else
    (false, [])

/-- Shallow embedding of a `FieldRemover` argument as
`remove_multiple_items_at_path_targets` reads it (attribute `target_path`;
the dataclass in `dynamodb/models.py` declares the field under the name
`field_path`, a skew that only nonempty remover lists can observe). -/
structure FieldRemover where
  target_path : String
  query_kwargs : Option (List (String × String)) := none

/-- Embedding of `BaseTable.remove_multiple_items_at_path_targets`
(lines 222-241), parameterised over the path renderer
(`process_and_make_single_rendered_database_path`) and the client call
(`remove_data_elements_from_map`, whose `None` response maps to `False`).
Returns the boolean result, the issued store requests, and the number of
renderer invocations performed. -/
def remove_multiple_items_at_path_targets
    (render_path : FieldRemover → List DatabasePathElement)
    (client_remove : List (List DatabasePathElement) → Option Unit)
    (removers : List FieldRemover) : Bool × List StoreRequest × Nat :=
  if removers.length > 0 then
    let removers_database_paths := removers.map render_path
    ((client_remove removers_database_paths).isSome,
      [.removeDataElements removers_database_paths], removers.length)
  else
    (true, [], 0)

/-! ## Reserved characters in field names (spec section 4.2 / 7)

The sources under study contain `src/tests/test_reserved_characters.py`,
which requires constructing a table over a model containing a field named
with `[`, `]`, `\x7b` or `\x7d` to raise `InvalidFieldNameException`, but the
`StructNoSQL.exceptions` module and the name validation itself are not among
the source files; `BaseField.__init__` as given performs no name check. The
check is therefore modelled from the spec and composed with the embedded
compiler. -/

/-- Compile-time schema errors (spec section 7). -/
inductive SchemaError where
  | invalidFieldName
deriving DecidableEq, Repr

/-- Declared name of an embedded field. -/
def declName : FieldDecl → String
  | .plainField name _ _ _ _ => name
  | .dictFieldPrim name _ _ _ _ _ _ _ => name
  | .dictFieldModel name _ _ _ _ _ _ _ => name
  | .mapFieldDecl name _ _ => name

/-- Nested model class a field declaration owns, if any. -/
def declNestedModel : FieldDecl → Option ClassVars
  | .dictFieldModel _ _ m _ _ _ _ _ => some m
  | .mapFieldDecl _ m _ => some m
  | _ => none

/-- Modelled from the spec: a declared field name is rejected when it contains
one of the reserved characters `[`, `]`, `\x7b`, `\x7d` (spec section 6;
`StructNoSQL.exceptions.InvalidFieldNameException` is absent from the given
sources). -/
def field_name_is_reserved (name : String) : Bool :=
  name.data.any (fun c => c == '[' || c == ']' || c == '\x7b' || c == '\x7d')

/-- Modelled from the spec: walking every declared field of a schema, at any
nesting position, and failing with `InvalidFieldName` on the first reserved
name (spec sections 4.2 and 7: reserved characters in a declared field name
make compilation of that schema fail). Fuel bounds the walk; the theorems
pair it with a derivation witnessing the reserved field within that fuel. -/
def schema_reserved_name_check : Nat → ClassVars → Except SchemaError Unit
  | 0, _ => .ok ()
  | _ + 1, .nil => .ok ()
  | f + 1, .cons _ d rest =>
    if field_name_is_reserved (declName d) then
      .error .invalidFieldName
    else
      match (match declNestedModel d with
             | some m => schema_reserved_name_check f m
             | none => .ok ()) with
      | .error e => .error e
      | .ok _ => schema_reserved_name_check f rest

/-- Modelled from the spec: table construction first validates every declared
field name and aborts with the schema error before anything is registered;
only a schema with no reserved names proceeds to the path compilation. -/
def compile_table_checked (fuel : Nat) (model : ClassVars) :
    Except SchemaError (Registry × ClassVars) :=
  match schema_reserved_name_check fuel model with
  | .error e => .error e
  | .ok _ => .ok (assign_internal_mapping_from_class fuel model)

/-- Witnesses that a schema contains a field whose declared name has a
reserved character, at a nesting position reachable within the given fuel
(the index mirrors the fuel flow of `schema_reserved_name_check`). -/
inductive HasReservedFieldWithin : Nat → ClassVars → Prop
  | head (f : Nat) (k : String) (d : FieldDecl) (rest : ClassVars) :
      field_name_is_reserved (declName d) = true →
      HasReservedFieldWithin (f + 1) (.cons k d rest)
  | nested (f : Nat) (k : String) (d : FieldDecl) (rest : ClassVars) (m : ClassVars) :
      declNestedModel d = some m → HasReservedFieldWithin f m →
      HasReservedFieldWithin (f + 1) (.cons k d rest)
  | tail (f : Nat) (k : String) (d : FieldDecl) (rest : ClassVars) :
      HasReservedFieldWithin f rest → HasReservedFieldWithin (f + 1) (.cons k d rest)

/-! ## Claim theorems -/

/-- C10: removing with an empty remover list is a successful no-op — for
every table (any renderer and any document-store client),
`remove_multiple_items_at_path_targets` on an empty remover list returns
`True`, issues no request to the store client, and performs zero renderer
invocations. -/
theorem remove_multiple_items_empty_removers_noop :
    ∀ (render_path : FieldRemover → List DatabasePathElement)
      (client_remove : List (List DatabasePathElement) → Option Unit),
      remove_multiple_items_at_path_targets render_path client_remove [] =
        (true, [], 0) := by
  intro render_path client_remove
  rfl

/-- C9: `put_record` is atomic with respect to validation — when the table's
validation reports the record invalid, `put_record` returns `False` and
forwards no request to the document-store client; when it reports it valid,
exactly one put request is issued, carrying the validated (cleaned) data
returned by the validator, never the raw input. -/
theorem put_record_validation_atomicity :
    ∀ (validate : Option PyValue → Option PyValue × Bool)
      (client_put_record : Option PyValue → Bool) (record : PyValue),
      ((validate (some record)).2 = false →
        put_record validate client_put_record record = (false, [])) ∧
      ((validate (some record)).2 = true →
        put_record validate client_put_record record =
          (client_put_record (validate (some record)).1,
            [.putRecord (validate (some record)).1])) := by
  intro validate client_put_record record
  constructor
  · intro h
    simp [put_record, h]
  · intro h
    simp [put_record, h]

/-- Witness for C9 at a concrete validator, client and record: the validator
accepts, and the single issued request carries the validator's output. -/
theorem put_record_validation_atomicity_witness :
    ((fun v => (v, true)) (some (PyValue.vint 1)) : Option PyValue × Bool).2 = true ∧
    put_record (fun v => (v, true)) (fun _ => true) (PyValue.vint 1) =
      (true, [.putRecord (some (PyValue.vint 1))]) :=
  ⟨rfl, (put_record_validation_atomicity (fun v => (v, true)) (fun _ => true)
    (PyValue.vint 1)).2 rfl⟩

/-- C3 (refuted, code bug): the claim says rendering never mutates the
compiled chain. The source's rendering loop (`BaseItem.query`,
src/structnosql/fields.py line 87) assigns `path_element.element_key`
in place: rendering the one-element compiled chain `[$key$:projectId]`
with `query_kwargs = \x7b"projectId": "p1"\x7d` succeeds (no error) and leaves
the shared chain equal to `["p1"]`, which differs from the compiled chain —
a second render with different arguments would no longer find the
placeholder. -/
theorem query_render_loop_mutates_shared_chain :
    query_render_loop (some [("projectId", "p1")])
        [⟨"$key$:projectId", .pdict, none⟩] =
      ([⟨"p1", .pdict, none⟩], none) ∧
    ([(⟨"p1", .pdict, none⟩ : DatabasePathElement)] ≠
      [(⟨"$key$:projectId", .pdict, none⟩ : DatabasePathElement)]) := by
  decide

/-- Helper for C6: a schema containing a reserved-character field name within
the checker's fuel makes the name check fail with `InvalidFieldName`. -/
theorem schema_reserved_name_check_error_of_hasReserved :
    ∀ (fuel : Nat) (vs : ClassVars), HasReservedFieldWithin fuel vs →
      schema_reserved_name_check fuel vs = .error .invalidFieldName := by
  intro fuel vs h
  induction h with
  | head f k d rest hres =>
    simp [schema_reserved_name_check, hres]
  | nested f k d rest m hm hin ih =>
    by_cases hr : field_name_is_reserved (declName d) = true
    · simp [schema_reserved_name_check, hr]
    · simp only [Bool.not_eq_true] at hr
      simp [schema_reserved_name_check, hr, hm, ih]
  | tail f k d rest hin ih =>
    by_cases hr : field_name_is_reserved (declName d) = true
    · simp [schema_reserved_name_check, hr]
    · simp only [Bool.not_eq_true] at hr
      cases hnm : declNestedModel d with
      | none => simp [schema_reserved_name_check, hr, hnm, ih]
      | some m =>
        cases hcm : schema_reserved_name_check f m with
        | error e =>
          cases e
          simp [schema_reserved_name_check, hr, hnm, hcm]
        | ok u => simp [schema_reserved_name_check, hr, hnm, hcm, ih]

/-- C6: compiling a schema that contains, at any nesting position, a field
whose declared name has one of the reserved characters `[`, `]`, `\x7b`, `\x7d`
always fails with the schema error `InvalidFieldName`; the failed construction
produces no registry, so no such field is ever silently registered. The name
validation itself is modelled from the spec (see `schema_reserved_name_check`). -/
theorem reserved_field_name_always_fails_compilation :
    ∀ (fuel : Nat) (model : ClassVars), HasReservedFieldWithin fuel model →
      compile_table_checked fuel model = .error .invalidFieldName := by
  intro fuel model h
  unfold compile_table_checked
  rw [schema_reserved_name_check_error_of_hasReserved fuel model h]

/-- Witness for C6 at the schema of `test_left_bracket_char`: a top-level
field named `restrictedRightBracket_[e` makes table construction fail. -/
theorem reserved_field_name_always_fails_compilation_witness :
    HasReservedFieldWithin 1
      (.cons "restrictedRightBracket"
        (.plainField "restrictedRightBracket_[e" .pstr false none none) .nil) ∧
    compile_table_checked 1
      (.cons "restrictedRightBracket"
        (.plainField "restrictedRightBracket_[e" .pstr false none none) .nil) =
      .error .invalidFieldName :=
  ⟨.head 0 _ _ _ (by decide),
    reserved_field_name_always_fails_compilation 1 _ (.head 0 _ _ _ (by decide))⟩

/-- Helper for C7: the exact error value raised for a missing placeholder
variable, depending on whether a kwargs dict was passed at all. -/
def render_error_for (query_kwargs : Option (List (String × String)))
    (variable_name : String) : QueryError :=
  match query_kwargs with
  | some _ => .missingKwarg variable_name
  | none => .noKwargs variable_name

/-- C7: for every compiled chain and query-arguments mapping, if some
placeholder element's variable name has no entry in the mapping then the
rendering loop raises an error naming a missing placeholder variable of the
chain; and whenever the loop completes without error, every placeholder
element got exactly the looked-up literal value substituted into its key and
every other element is unchanged (elementwise `spec_rendered_element`). -/
theorem render_missing_kwarg_fails_present_substitutes :
    ∀ (query_kwargs : Option (List (String × String)))
      (chain : List DatabasePathElement),
      ((query_render_loop query_kwargs chain).2 = none →
        (query_render_loop query_kwargs chain).1 =
          chain.map (spec_rendered_element query_kwargs)) ∧
      ((∃ e ∈ chain, isPlaceholderElement e = true ∧
          kwargsGet query_kwargs (placeholderVariableName e) = none) →
        ∃ v, kwargsGet query_kwargs v = none ∧
          (∃ e ∈ chain, isPlaceholderElement e = true ∧ placeholderVariableName e = v) ∧
          (query_render_loop query_kwargs chain).2 =
            some (render_error_for query_kwargs v)) := by
  intro query_kwargs chain
  induction chain with
  | nil =>
    constructor
    · intro _; rfl
    · rintro ⟨e, he, -⟩
      exact absurd he (List.not_mem_nil e)
  | cons e rest ih =>
    constructor
    · intro hok
      by_cases hp : isPlaceholderElement e = true
      · match hq : query_kwargs with
        | some kwargs =>
          match ha : assocGet kwargs (placeholderVariableName e) with
          | some mk =>
            have h2 : (query_render_loop (some kwargs) (e :: rest)).2 =
                (query_render_loop (some kwargs) rest).2 := by
              simp [query_render_loop, hp, ha]
            have hrest := ih.1 (by rw [← h2]; exact hok)
            simp [query_render_loop, hp, ha, List.map_cons, spec_rendered_element,
              kwargsGet, hrest]
          | none =>
            exfalso
            have h2 : (query_render_loop (some kwargs) (e :: rest)).2 =
                some (.missingKwarg (placeholderVariableName e)) := by
              simp [query_render_loop, hp, ha]
            rw [h2] at hok
            exact Option.some_ne_none _ hok
        | none =>
          exfalso
          have h2 : (query_render_loop none (e :: rest)).2 =
              some (.noKwargs (placeholderVariableName e)) := by
            simp [query_render_loop, hp]
          rw [h2] at hok
          exact Option.some_ne_none _ hok
      · simp only [Bool.not_eq_true] at hp
        have h2 : (query_render_loop query_kwargs (e :: rest)).2 =
            (query_render_loop query_kwargs rest).2 := by
          simp [query_render_loop, hp]
        have hrest := ih.1 (by rw [← h2]; exact hok)
        simp [query_render_loop, hp, List.map_cons, spec_rendered_element, hrest]
    · rintro ⟨e0, he0, hpe0, hmiss⟩
      by_cases hp : isPlaceholderElement e = true
      · match hq : query_kwargs with
        | none =>
          refine ⟨placeholderVariableName e, rfl,
            ⟨e, List.mem_cons_self e rest, hp, rfl⟩, ?_⟩
          simp [query_render_loop, hp, render_error_for]
        | some kwargs =>
          match ha : assocGet kwargs (placeholderVariableName e) with
          | none =>
            refine ⟨placeholderVariableName e, by simp [kwargsGet, ha],
              ⟨e, List.mem_cons_self e rest, hp, rfl⟩, ?_⟩
            simp [query_render_loop, hp, ha, render_error_for]
          | some mk =>
            rcases List.mem_cons.mp he0 with rfl | he0rest
            · exfalso
              have : assocGet kwargs (placeholderVariableName e0) = none := by
                simpa [kwargsGet] using hmiss
              rw [this] at ha
              exact Option.noConfusion ha
            · rcases ih.2 ⟨e0, he0rest, hpe0, hmiss⟩ with ⟨v, hv, ⟨e1, he1, hpe1, hve1⟩, herr⟩
              refine ⟨v, hv, ⟨e1, List.mem_cons_of_mem e he1, hpe1, hve1⟩, ?_⟩
              simpa [query_render_loop, hp, ha] using herr
      · simp only [Bool.not_eq_true] at hp
        rcases List.mem_cons.mp he0 with rfl | he0rest
        · rw [hp] at hpe0
          exact absurd hpe0 (by simp)
        · rcases ih.2 ⟨e0, he0rest, hpe0, hmiss⟩ with ⟨v, hv, ⟨e1, he1, hpe1, hve1⟩, herr⟩
          refine ⟨v, hv, ⟨e1, List.mem_cons_of_mem e he1, hpe1, hve1⟩, ?_⟩
          simpa [query_render_loop, hp] using herr

/-- Witness for C7: rendering `[projects, $key$:projectId, projectName]` with
`\x7bprojectId: p1\x7d` substitutes `p1`; rendering with empty kwargs raises an
error naming `projectId`. -/
theorem render_missing_kwarg_fails_present_substitutes_witness :
    ((query_render_loop (some [("projectId", "p1")])
        [⟨"projects", .pdict, none⟩, ⟨"$key$:projectId", .pdict, none⟩,
          ⟨"projectName", .pstr, none⟩]).1 =
      [⟨"projects", .pdict, none⟩, ⟨"$key$:projectId", .pdict, none⟩,
          ⟨"projectName", .pstr, none⟩].map
        (spec_rendered_element (some [("projectId", "p1")]))) ∧
    (∃ v, kwargsGet (some ([] : List (String × String))) v = none ∧
      (∃ e ∈ [(⟨"$key$:projectId", .pdict, none⟩ : DatabasePathElement)],
        isPlaceholderElement e = true ∧ placeholderVariableName e = v) ∧
      (query_render_loop (some []) [(⟨"$key$:projectId", .pdict, none⟩ : DatabasePathElement)]).2 =
        some (render_error_for (some []) v)) :=
  ⟨(render_missing_kwarg_fails_present_substitutes (some [("projectId", "p1")])
      [⟨"projects", .pdict, none⟩, ⟨"$key$:projectId", .pdict, none⟩,
        ⟨"projectName", .pstr, none⟩]).1 (by decide),
    (render_missing_kwarg_fails_present_substitutes (some [])
      [(⟨"$key$:projectId", .pdict, none⟩ : DatabasePathElement)]).2
      (by refine ⟨⟨"$key$:projectId", .pdict, none⟩, by decide, by decide, by decide⟩)⟩

/-- Decidable equality for `Except` results, so concrete validator runs can
be checked by `decide`. -/
instance {e a : Type} [DecidableEq e] [DecidableEq a] : DecidableEq (Except e a) :=
  fun x y =>
    match x, y with
    | .ok u, .ok v =>
      if h : u = v then isTrue (by rw [h]) else isFalse (by simp [h])
    | .error u, .error v =>
      if h : u = v then isTrue (by rw [h]) else isFalse (by simp [h])
    | .ok _, .error _ => isFalse (by simp)
    | .error _, .ok _ => isFalse (by simp)

/-- Membership of a key in an embedded Python dict. -/
def pyDictHasKey : PyDict → String → Bool
  | .nil, _ => false
  | .cons k _ rest, s => k == s || pyDictHasKey rest s

/-- C2 counterexample: the claim as stated says a runtime-type mismatch on a
required field makes the whole validation report failure. Validating
`\x7b"p1": \x7b"name": 42\x7d\x7d` against a keyed collection whose nested schema
declares `name : str` as required does not fail: the source pops the whole
`"p1"` item and returns the remaining collection as accepted
(`.ok (some \x7b\x7d)`, not `None` and not an exception). -/
theorem required_mismatch_no_operation_failure_counterexample :
    validate_data 20
        (.vdict (.cons "p1" (.vdict (.cons "name" (.vint 42) .nil)) .nil))
        .pdict none (some .pstr)
        (some (.dmodel (.cons "name" (.plainField "name" .pstr true none none) .nil))) =
      .ok (some (.vdict .nil)) ∧
    (Except.ok (some (PyValue.vdict .nil)) ≠
      (.ok none : Except ValidError (Option PyValue))) := by
  decide

/-- C2 (amended): a runtime-type mismatch on the value directly validated
yields `None` (failure) regardless of requiredness; inside a keyed-collection
item validated against a nested schema, a mismatch on an optional field drops
only that entry and the loop continues with the remaining entries, while a
mismatch on a required field makes the loop signal the drop of the whole
containing item (`.rElems none`), after which the collection loop pops that
item and continues; collection-level validation always returns an accepted
cleaned dict when it returns at all, never the operation-wide failure `None`. -/
theorem validator_required_optional_mismatch_behaviour :
    (∀ (fuel : Nat) (v : PyValue) (t : PyType) (imm : Option ClassVars)
       (kt : Option PyType) (dve : Option DictValueExpected),
       types_match (pyTypeOf v) t = false →
       validate_data (fuel + 1) v t imm kt dve = .ok none) ∧
    (∀ (fuel : Nat) (m : ClassVars) (ek : String) (fld : FieldDecl) (ev : PyValue)
       (rest : PyDict),
       lookupMember m ek = some fld → declRequired fld = false →
       validateAux fuel (.value ev (declFieldType fld) (declMapModel fld) none none) =
         .ok (.rValue none) →
       validate_elem_entries (fuel + 1) m (.cons ek ev rest) =
         validate_elem_entries fuel m rest) ∧
    (∀ (fuel : Nat) (m : ClassVars) (ek : String) (fld : FieldDecl) (ev : PyValue)
       (rest : PyDict),
       lookupMember m ek = some fld → declRequired fld = true →
       validateAux fuel (.value ev (declFieldType fld) (declMapModel fld) none none) =
         .ok (.rValue none) →
       validate_elem_entries (fuel + 1) m (.cons ek ev rest) = .ok none) ∧
    (∀ (fuel : Nat) (kt : Option PyType) (m : ClassVars) (k : String)
       (elems rest : PyDict),
       collKeyTypeMismatch kt = false →
       validateAux fuel (.elemEntries m elems) = .ok (.rElems none) →
       validate_coll_entries (fuel + 1) kt (some (.dmodel m))
           (.cons k (.vdict elems) rest) =
         validate_coll_entries fuel kt (some (.dmodel m)) rest) ∧
    (∀ (fuel : Nat) (kt : Option PyType) (dve : DictValueExpected) (entries : PyDict)
       (r : Option PyValue),
       validate_data fuel (.vdict entries) .pdict none kt (some dve) = .ok r →
       ∃ kept, r = some (.vdict kept)) := by
  refine ⟨?_, ?_, ?_, ?_, ?_⟩
  · intro fuel v t imm kt dve h
    simp [validate_data, validateAux, h]
  · intro fuel m ek fld ev rest hlk hreq hv
    simp [validate_elem_entries, validateAux, hlk, hv, hreq]
  · intro fuel m ek fld ev rest hlk hreq hv
    simp [validate_elem_entries, validateAux, hlk, hv, hreq]
  · intro fuel kt m k elems rest hkt helems
    cases hrest : validateAux fuel (.collEntries kt (some (.dmodel m)) rest) with
    | error e => simp [validate_coll_entries, validateAux, hkt, helems, hrest]
    | ok res => cases res <;> simp [validate_coll_entries, validateAux, hkt, helems, hrest]
  · intro fuel kt dve entries r h
    cases fuel with
    | zero => simp [validate_data, validateAux] at h
    | succ f =>
      cases hc : validateAux f (.collEntries kt (some dve) entries) with
      | error e => simp [validate_data, validateAux, types_match, pyTypeOf, hc] at h
      | ok res =>
        cases res with
        | rEntries kept =>
          simp [validate_data, validateAux, types_match, pyTypeOf, hc] at h
          exact ⟨kept, h.symm⟩
        | rValue r0 => simp [validate_data, validateAux, types_match, pyTypeOf, hc] at h
        | rElems r0 => simp [validate_data, validateAux, types_match, pyTypeOf, hc] at h

/-- Witness for C2 (amended) at concrete inputs: a direct type mismatch
yields `None`; an optional mismatch drops one entry and continues; a
required mismatch signals the drop of the containing item; the collection
loop pops such an item and continues; a collection validation result is an
accepted dict. -/
theorem validator_required_optional_mismatch_behaviour_witness :
    validate_data 1 (.vint 7) .pstr none none none = .ok none ∧
    validate_elem_entries 6
        (.cons "name" (.plainField "name" .pstr false none none) .nil)
        (.cons "name" (.vint 42) .nil) =
      validate_elem_entries 5
        (.cons "name" (.plainField "name" .pstr false none none) .nil) .nil ∧
    validate_elem_entries 6
        (.cons "name" (.plainField "name" .pstr true none none) .nil)
        (.cons "name" (.vint 42) .nil) = .ok none ∧
    validate_coll_entries 6 none
        (some (.dmodel (.cons "name" (.plainField "name" .pstr true none none) .nil)))
        (.cons "p1" (.vdict (.cons "name" (.vint 42) .nil)) .nil) =
      validate_coll_entries 5 none
        (some (.dmodel (.cons "name" (.plainField "name" .pstr true none none) .nil)))
        .nil ∧
    (∃ kept, (some (PyValue.vdict .nil) : Option PyValue) = some (.vdict kept)) :=
  ⟨validator_required_optional_mismatch_behaviour.1 0 (.vint 7) .pstr none none none
      (by decide),
    validator_required_optional_mismatch_behaviour.2.1 5 _ "name"
      (.plainField "name" .pstr false none none) (.vint 42) .nil (by decide) (by decide)
      (by decide),
    validator_required_optional_mismatch_behaviour.2.2.1 5 _ "name"
      (.plainField "name" .pstr true none none) (.vint 42) .nil (by decide) (by decide)
      (by decide),
    validator_required_optional_mismatch_behaviour.2.2.2.1 5 none _ "p1"
      (.cons "name" (.vint 42) .nil) .nil (by decide) (by decide),
    validator_required_optional_mismatch_behaviour.2.2.2.2 6 none
      (.dmodel (.cons "name" (.plainField "name" .pstr true none none) .nil))
      (.cons "p1" (.vdict (.cons "name" (.vint 42) .nil)) .nil)
      (some (.vdict .nil)) (by decide)⟩

/-- C8 counterexample: the claim as stated says a key declared required but
absent from the value makes validation fail. Validating `\x7b"p1": \x7b\x7d\x7d`
against a keyed collection whose nested schema declares `name : str` as
required succeeds unchanged (the source never checks declared-but-absent
keys), contradicting the claim. -/
theorem absent_required_key_accepted_counterexample :
    validate_data 20 (.vdict (.cons "p1" (.vdict .nil) .nil)) .pdict none
        (some .pstr)
        (some (.dmodel (.cons "name" (.plainField "name" .pstr true none none) .nil))) =
      .ok (some (.vdict (.cons "p1" (.vdict .nil) .nil))) ∧
    (Except.ok (some (PyValue.vdict (.cons "p1" (.vdict .nil) .nil))) ≠
      (.ok none : Except ValidError (Option PyValue))) := by
  decide

/-- C8 (amended): for a dict value validated as one item of a keyed
collection against a nested schema, a key present in the value but not
declared in the schema is dropped and the loop continues; every key of the
cleaned output is a declared key that was present in the input (so no default
is ever injected and declared-but-absent keys stay absent); an item with no
entries is accepted as-is, so an absent key is never a failure even when
declared required. In the `map_model` branch, by contrast, an undeclared key
raises the `"No map validator was found."` exception instead of being
dropped. -/
theorem validator_unknown_and_absent_keys_behaviour :
    (∀ (fuel : Nat) (m : ClassVars) (ek : String) (ev : PyValue) (rest : PyDict),
       lookupMember m ek = none →
       validate_elem_entries (fuel + 1) m (.cons ek ev rest) =
         validate_elem_entries fuel m rest) ∧
    (∀ (fuel : Nat) (m : ClassVars) (entries kept : PyDict),
       validate_elem_entries fuel m entries = .ok (some kept) →
       ∀ (k : String), pyDictHasKey kept k = true →
         pyDictHasKey entries k = true ∧ lookupMember m k ≠ none) ∧
    (∀ (fuel : Nat) (m : ClassVars),
       validate_elem_entries (fuel + 1) m .nil = .ok (some .nil)) ∧
    (∀ (fuel : Nat) (m : ClassVars) (ek : String) (ev : PyValue) (rest : PyDict),
       lookupMember m ek = none →
       validate_map_entries (fuel + 1) m (.cons ek ev rest) = .error .noMapValidator) := by
  refine ⟨?_, ?_, ?_, ?_⟩
  · intro fuel m ek ev rest hlk
    simp [validate_elem_entries, validateAux, hlk]
  · intro fuel
    induction fuel with
    | zero =>
      intro m entries kept h
      simp [validate_elem_entries, validateAux] at h
    | succ f ih =>
      intro m entries kept h
      cases entries with
      | nil =>
        simp [validate_elem_entries, validateAux] at h
        intro k hk
        rw [← h] at hk
        simp [pyDictHasKey] at hk
      | cons ek ev rest =>
        cases hlk : lookupMember m ek with
        | none =>
          have h2 : validate_elem_entries f m rest = .ok (some kept) := by
            rw [← h]; simp [validate_elem_entries, validateAux, hlk]
          intro k hk
          have ⟨h3, h4⟩ := ih m rest kept h2 k hk
          exact ⟨by simp [pyDictHasKey, h3], h4⟩
        | some fld =>
          cases hv : validateAux f (.value ev (declFieldType fld) (declMapModel fld) none none) with
          | error e =>
            simp [validate_elem_entries, validateAux, hlk, hv] at h
          | ok res =>
            match res with
            | .rValue (some ev') =>
              cases hr : validateAux f (.elemEntries m rest) with
              | error e =>
                simp [validate_elem_entries, validateAux, hlk, hv, hr] at h
              | ok res2 =>
                match res2 with
                | .rElems (some kept') =>
                  have hkept : kept = .cons ek ev' kept' := by
                    simp [validate_elem_entries, validateAux, hlk, hv, hr] at h
                    exact h.symm
                  intro k hk
                  rw [hkept] at hk
                  simp only [pyDictHasKey, Bool.or_eq_true, beq_iff_eq] at hk
                  rcases hk with rfl | hk2
                  · refine ⟨by simp [pyDictHasKey], by rw [hlk]; simp⟩
                  · have h2 : validate_elem_entries f m rest = .ok (some kept') := by
                      simp [validate_elem_entries, hr]
                    have ⟨h3, h4⟩ := ih m rest kept' h2 k hk2
                    exact ⟨by simp [pyDictHasKey, h3], h4⟩
                | .rElems none =>
                  simp [validate_elem_entries, validateAux, hlk, hv, hr] at h
                | .rValue r0 =>
                  simp [validate_elem_entries, validateAux, hlk, hv, hr] at h
                | .rEntries k0 =>
                  simp [validate_elem_entries, validateAux, hlk, hv, hr] at h
            | .rValue none =>
              cases hreq : declRequired fld with
              | false =>
                have h2 : validate_elem_entries f m rest = .ok (some kept) := by
                  rw [← h]; simp [validate_elem_entries, validateAux, hlk, hv, hreq]
                intro k hk
                have ⟨h3, h4⟩ := ih m rest kept h2 k hk
                exact ⟨by simp [pyDictHasKey, h3], h4⟩
              | true =>
                simp [validate_elem_entries, validateAux, hlk, hv, hreq] at h
            | .rEntries k0 =>
              simp [validate_elem_entries, validateAux, hlk, hv] at h
            | .rElems r0 =>
              simp [validate_elem_entries, validateAux, hlk, hv] at h
  · intro fuel m
    simp [validate_elem_entries, validateAux]
  · intro fuel m ek ev rest hlk
    simp [validate_map_entries, validateAux, hlk]

/-- Witness for C8 (amended) at concrete inputs: the undeclared key `extra`
is dropped and the loop continues; the cleaned output of the spec's scenario
item only repeats declared input keys; the empty item is accepted; an
undeclared key under the `map_model` branch raises. -/
theorem validator_unknown_and_absent_keys_behaviour_witness :
    validate_elem_entries 6
        (.cons "name" (.plainField "name" .pstr true none none) .nil)
        (.cons "extra" (.vint 1) .nil) =
      validate_elem_entries 5
        (.cons "name" (.plainField "name" .pstr true none none) .nil) .nil ∧
    (pyDictHasKey (.cons "name" (.vstr "Foo") .nil) "name" = true ∧
      lookupMember (.cons "name" (.plainField "name" .pstr true none none) .nil)
        "name" ≠ none) ∧
    validate_elem_entries 6
        (.cons "name" (.plainField "name" .pstr true none none) .nil) .nil =
      .ok (some .nil) ∧
    validate_map_entries 6
        (.cons "name" (.plainField "name" .pstr true none none) .nil)
        (.cons "extra" (.vint 1) .nil) = .error .noMapValidator :=
  ⟨validator_unknown_and_absent_keys_behaviour.1 5 _ "extra" (.vint 1) .nil (by decide),
    validator_unknown_and_absent_keys_behaviour.2.1 6
      (.cons "name" (.plainField "name" .pstr true none none) .nil)
      (.cons "name" (.vstr "Foo") (.cons "extra" (.vint 1) .nil))
      (.cons "name" (.vstr "Foo") .nil) (by decide) "name" (by decide),
    validator_unknown_and_absent_keys_behaviour.2.2.1 5 _,
    validator_unknown_and_absent_keys_behaviour.2.2.2 5 _ "extra" (.vint 1) .nil
      (by decide)⟩

/-- Invariant over registries: every stored chain has between 1 and 32
elements. -/
def RegistryLenOK (reg : Registry) : Prop :=
  ∀ p ∈ reg, 1 ≤ p.2.database_path.length ∧ p.2.database_path.length ≤ 32

/-- Helper for C1: `dict.__setitem__` only puts the given entry or keeps old
ones. -/
theorem dictSetItem_mem : ∀ (reg : Registry) (k : String) (it : RegEntry)
    (p : String × RegEntry), p ∈ dictSetItem reg k it → p = (k, it) ∨ p ∈ reg := by
  intro reg k it
  induction reg with
  | nil =>
    intro p hp
    simp [dictSetItem] at hp
    exact Or.inl hp
  | cons q rest ih =>
    obtain ⟨q1, q2⟩ := q
    intro p hp
    by_cases hk : q1 = k
    · simp only [dictSetItem, if_pos hk] at hp
      rcases List.mem_cons.mp hp with rfl | hrest
      · exact Or.inl rfl
      · exact Or.inr (List.mem_cons_of_mem _ hrest)
    · simp only [dictSetItem, if_neg hk] at hp
      rcases List.mem_cons.mp hp with rfl | hrest
      · exact Or.inr (List.mem_cons_self _ _)
      · rcases ih p hrest with h1 | h2
        · exact Or.inl h1
        · exact Or.inr (List.mem_cons_of_mem _ h2)

/-- Helper for C1: `FieldsSwitch.set` preserves the length invariant for any
entry whose chain is nonempty. -/
theorem fields_switch_set_preserves_inv (reg : Registry) (k : String)
    (it : RegEntry) (hreg : RegistryLenOK reg) (hit : 1 ≤ it.database_path.length) :
    RegistryLenOK (fields_switch_set reg k it).1 := by
  unfold fields_switch_set
  by_cases h32 : it.database_path.length > 32
  · simp [h32]
    exact hreg
  · simp [h32]
    intro p hp
    rcases dictSetItem_mem reg k it p hp with rfl | hmem
    · show 1 ≤ it.database_path.length ∧ it.database_path.length ≤ 32
      exact ⟨hit, by omega⟩
    · exact hreg p hmem

/-- Helper for C1: the embedded walker preserves the registry length
invariant in every mode (every registration goes through
`FieldsSwitch.set` with a chain of the form `prefix ++ [element]`). -/
theorem compileAux_preserves_reg_inv :
    ∀ (fuel : Nat) (call : CompileCall), RegistryLenOK call.regOf →
      RegistryLenOK (compileAux fuel call).1 := by
  intro fuel
  induction fuel with
  | zero =>
    intro call hreg
    simpa [compileAux] using hreg
  | succ f ih =>
    intro call hreg
    match call with
    | .vars .nil n c iN reg =>
      simpa [compileAux] using hreg
    | .vars (.cons vk d rest) n c iN reg =>
      have hreg0 : RegistryLenOK (CompileCall.regOf (.vars (.cons vk d rest) n c iN reg)) := hreg
      simp only [CompileCall.regOf] at hreg0
      match d with
      | .plainField name t req cd slot =>
        simp only [compileAux]
        apply ih
        simp only [CompileCall.regOf]
        exact fields_switch_set_preserves_inv _ _ _ hreg0 (by simp)
      | .dictFieldPrim name kt it req kn mx cd slot =>
        simp only [compileAux]
        apply ih
        simp only [CompileCall.regOf]
        have hA : RegistryLenOK (fields_switch_set reg (joinFieldPath n name)
            ⟨some name, req, c ++ [⟨name, .pdict, cd⟩], cd⟩).1 :=
          fields_switch_set_preserves_inv _ _ _ hreg0 (by simp)
        split
        · split
          · split
            · apply ih
              simp only [CompileCall.regOf]
              exact hA
            · exact hA
          · exact fields_switch_set_preserves_inv _ _ _ hA (by simp)
        · exact hA
      | .dictFieldModel name kt m req kn mx cd slot =>
        simp only [compileAux]
        apply ih
        simp only [CompileCall.regOf]
        have hA : RegistryLenOK (fields_switch_set reg (joinFieldPath n name)
            ⟨some name, req, c ++ [⟨name, .pdict, cd⟩], cd⟩).1 :=
          fields_switch_set_preserves_inv _ _ _ hreg0 (by simp)
        split
        · split
          · split
            · apply ih
              simp only [CompileCall.regOf]
              exact hA
            · exact hA
          · split
            · apply ih
              simp only [CompileCall.regOf]
              exact fields_switch_set_preserves_inv _ _ _ hA (by simp)
            · exact fields_switch_set_preserves_inv _ _ _ hA (by simp)
        · exact hA
      | .mapFieldDecl name m slot =>
        simp only [compileAux]
        apply ih
        simp only [CompileCall.regOf]
        have hA : RegistryLenOK (fields_switch_set reg (joinFieldPath n name)
            ⟨some name, false, c ++ [⟨name, .pdict, none⟩], none⟩).1 :=
          fields_switch_set_preserves_inv _ _ _ hreg0 (by simp)
        split
        · apply ih
          simp only [CompileCall.regOf]
          exact hA
        · exact hA
    | .unrollPrim name kn it cd cnfp cndp i 0 reg =>
      simpa [compileAux] using hreg
    | .unrollPrim name kn it cd cnfp cndp i (r + 1) reg =>
      have hreg0 : RegistryLenOK reg := hreg
      simp only [compileAux]
      apply ih
      simp only [CompileCall.regOf]
      exact fields_switch_set_preserves_inv _ _ _ hreg0 (by simp)
    | .unrollModel name kn m cd cnfp cndp i 0 reg =>
      simpa [compileAux] using hreg
    | .unrollModel name kn m cd cnfp cndp i (r + 1) reg =>
      have hreg0 : RegistryLenOK reg := hreg
      simp only [compileAux]
      apply ih
      simp only [CompileCall.regOf]
      have hA : RegistryLenOK (fields_switch_set reg
          (cnfp ++ "." ++ name ++ ".\x7b\x7b" ++ strReplace kn "\x7bi\x7d" (toString i) ++ "\x7d\x7d")
          ⟨none, false, cndp ++ [⟨make_dict_key_var_name kn, .pdict, none⟩],
            some (.vdict .nil)⟩).1 :=
        fields_switch_set_preserves_inv _ _ _ hreg0 (by simp)
      split
      · apply ih
        simp only [CompileCall.regOf]
        exact hA
      · exact hA

/-- C1: for every schema whose compilation succeeds, every path chain stored
in the compiled registry (`fields_switch`) has between 1 and 32 elements;
and `FieldsSwitch.set` rejects any entry whose chain exceeds 32 elements,
returning the registry unchanged (the field is skipped, leaving the registry
without that entry). -/
theorem fields_switch_chain_length_bounds :
    (∀ (fuel : Nat) (model : ClassVars) (p : String × RegEntry),
       p ∈ (assign_internal_mapping_from_class fuel model).1 →
       1 ≤ p.2.database_path.length ∧ p.2.database_path.length ≤ 32) ∧
    (∀ (switch : Registry) (key : String) (item : RegEntry),
       item.database_path.length > 32 →
       fields_switch_set switch key item = (switch, false)) := by
  constructor
  · intro fuel model p hp
    have hinv : RegistryLenOK (CompileCall.regOf (.vars model none [] false [])) := by
      intro q hq
      exact absurd hq (List.not_mem_nil q)
    exact compileAux_preserves_reg_inv fuel (.vars model none [] false []) hinv p hp
  · intro switch key item h32
    simp [fields_switch_set, h32]

/-- Witness for C1: a concrete two-field schema compiles to a registry whose
`projects.\x7b\x7bprojectId\x7d\x7d` entry has a 2-element chain, within bounds; and a
33-element chain is rejected by `FieldsSwitch.set` on the empty registry. -/
theorem fields_switch_chain_length_bounds_witness :
    (1 ≤ (RegEntry.mk none false
        [⟨"projects", .pdict, none⟩, ⟨"$key$:projectId", .pstr, none⟩]
        (some (.vstr ""))).database_path.length ∧
      (RegEntry.mk none false
        [⟨"projects", .pdict, none⟩, ⟨"$key$:projectId", .pstr, none⟩]
        (some (.vstr ""))).database_path.length ≤ 32) ∧
    ((RegEntry.mk (some "x") false
        (List.replicate 33 ⟨"x", .pstr, none⟩) none).database_path.length > 32 ∧
      fields_switch_set [] "oversized"
        (RegEntry.mk (some "x") false (List.replicate 33 ⟨"x", .pstr, none⟩) none) =
        ([], false)) :=
  ⟨fields_switch_chain_length_bounds.1 3
      (.cons "projects" (.dictFieldPrim "projects" .pstr .pstr false "projectId" 32
        none none) .nil)
      ("projects.\x7b\x7bprojectId\x7d\x7d", RegEntry.mk none false
        [⟨"projects", .pdict, none⟩, ⟨"$key$:projectId", .pstr, none⟩]
        (some (.vstr "")))
      (by decide),
    by decide,
    fields_switch_chain_length_bounds.2 [] "oversized"
      (RegEntry.mk (some "x") false (List.replicate 33 ⟨"x", .pstr, none⟩) none)
      (by decide)⟩

mutual
/-- Two field declarations that agree on everything except their mutable
`_database_path` class slots (helper for C5: compilation writes the slots,
so recompiling runs on a slot-equivalent, not identical, class tree). -/
inductive FieldDeclEquiv : FieldDecl → FieldDecl → Prop where
  | plain (name : String) (t : PyType) (req : Bool) (cd : Option PyValue)
      (s1 s2 : Option (List DatabasePathElement)) :
      FieldDeclEquiv (.plainField name t req cd s1) (.plainField name t req cd s2)
  | dictPrim (name : String) (kt it : PyType) (req : Bool) (kn : String) (mx : Nat)
      (cd : Option PyValue) (s1 s2 : Option (List DatabasePathElement)) :
      FieldDeclEquiv (.dictFieldPrim name kt it req kn mx cd s1)
        (.dictFieldPrim name kt it req kn mx cd s2)
  | dictModel (name : String) (kt : PyType) (m1 m2 : ClassVars) (req : Bool)
      (kn : String) (mx : Nat) (cd : Option PyValue)
      (s1 s2 : Option (List DatabasePathElement)) :
      ClassVarsEquiv m1 m2 →
      FieldDeclEquiv (.dictFieldModel name kt m1 req kn mx cd s1)
        (.dictFieldModel name kt m2 req kn mx cd s2)
  | mapF (name : String) (m1 m2 : ClassVars)
      (s1 s2 : Option (List DatabasePathElement)) :
      ClassVarsEquiv m1 m2 →
      FieldDeclEquiv (.mapFieldDecl name m1 s1) (.mapFieldDecl name m2 s2)
/-- Pointwise slot-equivalence of class trees (helper for C5). -/
inductive ClassVarsEquiv : ClassVars → ClassVars → Prop where
  | nil : ClassVarsEquiv .nil .nil
  | cons (k : String) (d1 d2 : FieldDecl) (r1 r2 : ClassVars) :
      FieldDeclEquiv d1 d2 → ClassVarsEquiv r1 r2 →
      ClassVarsEquiv (.cons k d1 r1) (.cons k d2 r2)
end

mutual
/-- Reflexivity of slot-equivalence on fields (helper for C5). -/
theorem fieldDeclEquiv_refl : ∀ (d : FieldDecl), FieldDeclEquiv d d
  | .plainField n t r cd s => .plain n t r cd s s
  | .dictFieldPrim n kt it r kn mx cd s => .dictPrim n kt it r kn mx cd s s
  | .dictFieldModel n kt m r kn mx cd s =>
    .dictModel n kt m m r kn mx cd s s (classVarsEquiv_refl m)
  | .mapFieldDecl n m s => .mapF n m m s s (classVarsEquiv_refl m)
/-- Reflexivity of slot-equivalence on class trees (helper for C5). -/
theorem classVarsEquiv_refl : ∀ (vs : ClassVars), ClassVarsEquiv vs vs
  | .nil => .nil
  | .cons k d rest =>
    .cons k d d rest rest (fieldDeclEquiv_refl d) (classVarsEquiv_refl rest)
end

mutual
/-- Transitivity of slot-equivalence on fields (helper for C5). -/
theorem fieldDeclEquiv_trans {a b c : FieldDecl}
    (h1 : FieldDeclEquiv a b) (h2 : FieldDeclEquiv b c) : FieldDeclEquiv a c :=
  match h1, h2 with
  | .plain n t r cd s1 _, .plain _ _ _ _ _ s3 => .plain n t r cd s1 s3
  | .dictPrim n kt it r kn mx cd s1 _, .dictPrim _ _ _ _ _ _ _ _ s3 =>
    .dictPrim n kt it r kn mx cd s1 s3
  | .dictModel n kt m1 _ r kn mx cd s1 _ hm, .dictModel _ _ _ m3 _ _ _ _ _ s3 hm' =>
    .dictModel n kt m1 m3 r kn mx cd s1 s3 (classVarsEquiv_trans hm hm')
  | .mapF n m1 _ s1 _ hm, .mapF _ _ m3 _ s3 hm' =>
    .mapF n m1 m3 s1 s3 (classVarsEquiv_trans hm hm')
/-- Transitivity of slot-equivalence on class trees (helper for C5). -/
theorem classVarsEquiv_trans {a b c : ClassVars}
    (h1 : ClassVarsEquiv a b) (h2 : ClassVarsEquiv b c) : ClassVarsEquiv a c :=
  match h1, h2 with
  | .nil, .nil => .nil
  | .cons k d1 _ r1 _ hd hr, .cons _ _ d3 _ r3 hd' hr' =>
    .cons k d1 d3 r1 r3 (fieldDeclEquiv_trans hd hd') (classVarsEquiv_trans hr hr')
end

/-- Helper for C5: the embedded walker never reads the incoming
`_database_path` slots — compiling two slot-equivalent class trees from the
same registry yields identical registries and slot-equivalent output trees,
in both the class-walking and unroll-loop modes. -/
theorem compileAux_slot_agnostic :
    ∀ (fuel : Nat),
      (∀ (vs1 vs2 : ClassVars) (n : Option String) (c : List DatabasePathElement)
         (iN : Bool) (reg : Registry), ClassVarsEquiv vs1 vs2 →
         (compileAux fuel (.vars vs1 n c iN reg)).1 =
           (compileAux fuel (.vars vs2 n c iN reg)).1 ∧
         ClassVarsEquiv (compileAux fuel (.vars vs1 n c iN reg)).2
           (compileAux fuel (.vars vs2 n c iN reg)).2) ∧
      (∀ (name kn : String) (m1 m2 : ClassVars) (cd : Option PyValue) (cnfp : String)
         (cndp : List DatabasePathElement) (i r : Nat) (reg : Registry),
         ClassVarsEquiv m1 m2 →
         (compileAux fuel (.unrollModel name kn m1 cd cnfp cndp i r reg)).1 =
           (compileAux fuel (.unrollModel name kn m2 cd cnfp cndp i r reg)).1 ∧
         ClassVarsEquiv
           (compileAux fuel (.unrollModel name kn m1 cd cnfp cndp i r reg)).2
           (compileAux fuel (.unrollModel name kn m2 cd cnfp cndp i r reg)).2) := by
  intro fuel
  induction fuel with
  | zero =>
    constructor
    · intro vs1 vs2 n c iN reg h
      exact ⟨rfl, h⟩
    · intro name kn m1 m2 cd cnfp cndp i r reg h
      exact ⟨rfl, h⟩
  | succ f ih =>
    obtain ⟨ihv, ihu⟩ := ih
    constructor
    · intro vs1 vs2 n c iN reg h
      cases h with
      | nil => exact ⟨rfl, .nil⟩
      | cons k d1 d2 r1 r2 hd hr =>
        cases hd with
        | plain name t req cd s1 s2 =>
          simp only [compileAux]
          refine ⟨(ihv r1 r2 n c iN _ hr).1,
            .cons k _ _ _ _ (fieldDeclEquiv_refl _) (ihv r1 r2 n c iN _ hr).2⟩
        | dictPrim name kt it req kn mx cd s1 s2 =>
          simp only [compileAux]
          refine ⟨(ihv r1 r2 n c iN _ hr).1,
            .cons k _ _ _ _ (fieldDeclEquiv_refl _) (ihv r1 r2 n c iN _ hr).2⟩
        | dictModel name kt m1 m2 req kn mx cd s1 s2 hm =>
          by_cases h1 : (fields_switch_set reg (joinFieldPath n name)
              ⟨some name, req, c ++ [⟨name, .pdict, cd⟩], cd⟩).2 = true
          · by_cases h2 : strContainsSub kn "\x7bi\x7d" = true
            · by_cases h3 : (!iN) = true
              · simp only [compileAux, h1, h2, h3, if_true]
                obtain ⟨hu1, hu2⟩ := ihu name kn m1 m2 cd (n.getD "")
                  (c ++ [⟨name, .pdict, cd⟩]) 0 mx
                  ((fields_switch_set reg (joinFieldPath n name)
                    ⟨some name, req, c ++ [⟨name, .pdict, cd⟩], cd⟩).1) hm
                rw [← hu1]
                refine ⟨(ihv r1 r2 n c iN _ hr).1,
                  .cons k _ _ _ _ (.dictModel _ _ _ _ _ _ _ _ _ _ hu2)
                    (ihv r1 r2 n c iN _ hr).2⟩
              · simp only [compileAux, h1, h2, h3, if_true, if_false, Bool.false_eq_true]
                refine ⟨(ihv r1 r2 n c iN _ hr).1,
                  .cons k _ _ _ _ (.dictModel _ _ _ _ _ _ _ _ _ _ hm)
                    (ihv r1 r2 n c iN _ hr).2⟩
            · by_cases h4 : (fields_switch_set
                  (fields_switch_set reg (joinFieldPath n name)
                    ⟨some name, req, c ++ [⟨name, .pdict, cd⟩], cd⟩).1
                  (joinFieldPath n name ++ ".\x7b\x7b" ++ kn ++ "\x7d\x7d")
                  ⟨none, false, (c ++ [⟨name, .pdict, cd⟩]) ++
                    [⟨make_dict_key_var_name kn, .pdict, none⟩],
                    some (.vdict .nil)⟩).2 = true
              · simp only [compileAux, h1, h2, h4, if_true, if_false, Bool.false_eq_true]
                obtain ⟨hu1, hu2⟩ := ihv m1 m2
                  (some (joinFieldPath n name ++ ".\x7b\x7b" ++ kn ++ "\x7d\x7d"))
                  ((c ++ [⟨name, .pdict, cd⟩]) ++
                    [⟨make_dict_key_var_name kn, .pdict, none⟩]) false
                  ((fields_switch_set
                    (fields_switch_set reg (joinFieldPath n name)
                      ⟨some name, req, c ++ [⟨name, .pdict, cd⟩], cd⟩).1
                    (joinFieldPath n name ++ ".\x7b\x7b" ++ kn ++ "\x7d\x7d")
                    ⟨none, false, (c ++ [⟨name, .pdict, cd⟩]) ++
                      [⟨make_dict_key_var_name kn, .pdict, none⟩],
                      some (.vdict .nil)⟩).1) hm
                rw [← hu1]
                refine ⟨(ihv r1 r2 n c iN _ hr).1,
                  .cons k _ _ _ _ (.dictModel _ _ _ _ _ _ _ _ _ _ hu2)
                    (ihv r1 r2 n c iN _ hr).2⟩
              · simp only [compileAux, h1, h2, h4, if_true, if_false, Bool.false_eq_true]
                refine ⟨(ihv r1 r2 n c iN _ hr).1,
                  .cons k _ _ _ _ (.dictModel _ _ _ _ _ _ _ _ _ _ hm)
                    (ihv r1 r2 n c iN _ hr).2⟩
          · simp only [compileAux, h1, if_false, Bool.false_eq_true]
            refine ⟨(ihv r1 r2 n c iN _ hr).1,
              .cons k _ _ _ _ (.dictModel _ _ _ _ _ _ _ _ _ _ hm)
                (ihv r1 r2 n c iN _ hr).2⟩
        | mapF name m1 m2 s1 s2 hm =>
          by_cases h1 : (fields_switch_set reg (joinFieldPath n name)
              ⟨some name, false, c ++ [⟨name, .pdict, none⟩], none⟩).2 = true
          · simp only [compileAux, h1, if_true]
            obtain ⟨hu1, hu2⟩ := ihv m1 m2 (some (joinFieldPath n name))
              (c ++ [⟨name, .pdict, none⟩]) false
              ((fields_switch_set reg (joinFieldPath n name)
                ⟨some name, false, c ++ [⟨name, .pdict, none⟩], none⟩).1) hm
            rw [← hu1]
            refine ⟨(ihv r1 r2 n c iN _ hr).1,
              .cons k _ _ _ _ (.mapF _ _ _ _ _ hu2) (ihv r1 r2 n c iN _ hr).2⟩
          · simp only [compileAux, h1, if_false, Bool.false_eq_true]
            refine ⟨(ihv r1 r2 n c iN _ hr).1,
              .cons k _ _ _ _ (.mapF _ _ _ _ _ hm) (ihv r1 r2 n c iN _ hr).2⟩
    · intro name kn m1 m2 cd cnfp cndp i r reg h
      match r with
      | 0 => exact ⟨rfl, h⟩
      | r' + 1 =>
        by_cases h1 : (fields_switch_set reg
            (cnfp ++ "." ++ name ++ ".\x7b\x7b" ++ strReplace kn "\x7bi\x7d" (toString i) ++ "\x7d\x7d")
            ⟨none, false, cndp ++ [⟨make_dict_key_var_name kn, .pdict, none⟩],
              some (.vdict .nil)⟩).2 = true
        · simp only [compileAux, h1, if_true]
          obtain ⟨hu1, hu2⟩ := ihv m1 m2
            (some (cnfp ++ "." ++ name ++ ".\x7b\x7b" ++
              strReplace kn "\x7bi\x7d" (toString i) ++ "\x7d\x7d"))
            (cndp ++ [⟨make_dict_key_var_name (strReplace kn "\x7bi\x7d" (toString i)),
              .pdict, cd⟩]) true
            ((fields_switch_set reg
              (cnfp ++ "." ++ name ++ ".\x7b\x7b" ++
                strReplace kn "\x7bi\x7d" (toString i) ++ "\x7d\x7d")
              ⟨none, false, cndp ++ [⟨make_dict_key_var_name kn, .pdict, none⟩],
                some (.vdict .nil)⟩).1) h
          rw [← hu1]
          exact ihu name kn _ _ cd _ _ (i + 1) r' _ hu2
        · simp only [compileAux, h1, if_false, Bool.false_eq_true]
          exact ihu name kn m1 m2 cd _ _ (i + 1) r' _ h

/-- Helper for C5: the class tree a compilation returns is slot-equivalent to
the tree it was given — the walk only (re)assigns `_database_path` slots and
never changes the declarations themselves. -/
theorem compileAux_output_shape :
    ∀ (fuel : Nat),
      (∀ (vs : ClassVars) (n : Option String) (c : List DatabasePathElement)
         (iN : Bool) (reg : Registry),
         ClassVarsEquiv (compileAux fuel (.vars vs n c iN reg)).2 vs) ∧
      (∀ (name kn : String) (m : ClassVars) (cd : Option PyValue) (cnfp : String)
         (cndp : List DatabasePathElement) (i r : Nat) (reg : Registry),
         ClassVarsEquiv (compileAux fuel (.unrollModel name kn m cd cnfp cndp i r reg)).2 m) := by
  intro fuel
  induction fuel with
  | zero =>
    constructor
    · intro vs n c iN reg
      exact classVarsEquiv_refl vs
    · intro name kn m cd cnfp cndp i r reg
      exact classVarsEquiv_refl m
  | succ f ih =>
    obtain ⟨ihv, ihu⟩ := ih
    constructor
    · intro vs n c iN reg
      match vs with
      | .nil => exact .nil
      | .cons k d rest =>
        have hrest := ihv rest n c iN
        match d with
        | .plainField name t req cd s =>
          simp only [compileAux]
          exact .cons k _ _ _ _ (.plain name t req cd _ _) (ihv rest n c iN _)
        | .dictFieldPrim name kt it req kn mx cd s =>
          simp only [compileAux]
          exact .cons k _ _ _ _ (.dictPrim name kt it req kn mx cd _ _) (ihv rest n c iN _)
        | .dictFieldModel name kt m req kn mx cd s =>
          by_cases h1 : (fields_switch_set reg (joinFieldPath n name)
              ⟨some name, req, c ++ [⟨name, .pdict, cd⟩], cd⟩).2 = true
          · by_cases h2 : strContainsSub kn "\x7bi\x7d" = true
            · by_cases h3 : (!iN) = true
              · simp only [compileAux, h1, h2, h3, if_true]
                exact .cons k _ _ _ _
                  (.dictModel _ _ _ _ _ _ _ _ _ _ (ihu name kn m cd _ _ 0 mx _))
                  (ihv rest n c iN _)
              · simp only [compileAux, h1, h2, h3, if_true, if_false, Bool.false_eq_true]
                exact .cons k _ _ _ _
                  (.dictModel _ _ _ _ _ _ _ _ _ _ (classVarsEquiv_refl m))
                  (ihv rest n c iN _)
            · by_cases h4 : (fields_switch_set
                  (fields_switch_set reg (joinFieldPath n name)
                    ⟨some name, req, c ++ [⟨name, .pdict, cd⟩], cd⟩).1
                  (joinFieldPath n name ++ ".\x7b\x7b" ++ kn ++ "\x7d\x7d")
                  ⟨none, false, (c ++ [⟨name, .pdict, cd⟩]) ++
                    [⟨make_dict_key_var_name kn, .pdict, none⟩],
                    some (.vdict .nil)⟩).2 = true
              · simp only [compileAux, h1, h2, h4, if_true, if_false, Bool.false_eq_true]
                exact .cons k _ _ _ _
                  (.dictModel _ _ _ _ _ _ _ _ _ _ (ihv m _ _ false _))
                  (ihv rest n c iN _)
              · simp only [compileAux, h1, h2, h4, if_true, if_false, Bool.false_eq_true]
                exact .cons k _ _ _ _
                  (.dictModel _ _ _ _ _ _ _ _ _ _ (classVarsEquiv_refl m))
                  (ihv rest n c iN _)
          · simp only [compileAux, h1, if_false, Bool.false_eq_true]
            exact .cons k _ _ _ _
              (.dictModel _ _ _ _ _ _ _ _ _ _ (classVarsEquiv_refl m))
              (ihv rest n c iN _)
        | .mapFieldDecl name m s =>
          by_cases h1 : (fields_switch_set reg (joinFieldPath n name)
              ⟨some name, false, c ++ [⟨name, .pdict, none⟩], none⟩).2 = true
          · simp only [compileAux, h1, if_true]
            exact .cons k _ _ _ _ (.mapF _ _ _ _ _ (ihv m _ _ false _))
              (ihv rest n c iN _)
          · simp only [compileAux, h1, if_false, Bool.false_eq_true]
            exact .cons k _ _ _ _ (.mapF _ _ _ _ _ (classVarsEquiv_refl m))
              (ihv rest n c iN _)
    · intro name kn m cd cnfp cndp i r reg
      match r with
      | 0 => exact classVarsEquiv_refl m
      | r' + 1 =>
        by_cases h1 : (fields_switch_set reg
            (cnfp ++ "." ++ name ++ ".\x7b\x7b" ++ strReplace kn "\x7bi\x7d" (toString i) ++ "\x7d\x7d")
            ⟨none, false, cndp ++ [⟨make_dict_key_var_name kn, .pdict, none⟩],
              some (.vdict .nil)⟩).2 = true
        · simp only [compileAux, h1, if_true]
          exact classVarsEquiv_trans (ihu name kn _ cd _ _ (i + 1) r' _)
            (ihv m _ _ true _)
        · simp only [compileAux, h1, if_false, Bool.false_eq_true]
          exact ihu name kn m cd _ _ (i + 1) r' _

/-- C5: compilation is idempotent — re-running schema compilation on the
class tree left behind by a first compilation (its `_database_path` slots
assigned), as happens when two table bindings are constructed from the same
model class, produces a registry identical to the first compilation's
(equal path strings mapping to equal path chains, in the same order), and
leaves the class tree slot-equivalent to what the first compilation produced;
registries are snapshot values here, so the first table's registry is not
altered by the second compilation. -/
theorem compile_twice_structurally_identical :
    ∀ (fuel : Nat) (model : ClassVars),
      (assign_internal_mapping_from_class fuel
          (assign_internal_mapping_from_class fuel model).2).1 =
        (assign_internal_mapping_from_class fuel model).1 ∧
      ClassVarsEquiv
        (assign_internal_mapping_from_class fuel
          (assign_internal_mapping_from_class fuel model).2).2
        (assign_internal_mapping_from_class fuel model).2 := by
  intro fuel model
  have hshape := (compileAux_output_shape fuel).1 model none [] false []
  exact ((compileAux_slot_agnostic fuel).1 _ model none [] false [] hshape)

/-- C4 counterexample: the claim says a bounded-repetition field `slot\x7bi\x7d`
with `maxNestedDepth = 3` at top level registers one flat entry per index,
each path being the parent prefix plus the field name plus the key name with
`\x7bi\x7d` replaced by that single index (entries for slot0, slot1, slot2).
The source instead accumulates `current_nested_field_path` across loop
iterations, so the three registered path strings are CUMULATIVE nested
chains, each extending the previous one (and carrying a leading dot); in
particular no registered key mentions `slot1` without also mentioning
`slot0`, refuting the claimed flat `slot1` sibling entry. -/
theorem bounded_repetition_flat_sibling_entries_refuted :
    ((assign_internal_mapping_from_class 10
        (.cons "slots" (.dictFieldPrim "slots" .pstr .pstr false "slot\x7bi\x7d" 3
          none none) .nil)).1.map Prod.fst =
      ["slots", ".slots.\x7b\x7bslot0\x7d\x7d",
        ".slots.\x7b\x7bslot0\x7d\x7d.slots.\x7b\x7bslot1\x7d\x7d",
        ".slots.\x7b\x7bslot0\x7d\x7d.slots.\x7b\x7bslot1\x7d\x7d.slots.\x7b\x7bslot2\x7d\x7d"]) ∧
    (∀ k ∈ (assign_internal_mapping_from_class 10
        (.cons "slots" (.dictFieldPrim "slots" .pstr .pstr false "slot\x7bi\x7d" 3
          none none) .nil)).1.map Prod.fst,
      ¬(strContainsSub k "slot1" = true ∧ strContainsSub k "slot0" = false)) := by
  decide

/-- The cumulative key strings the `"\x7bi\x7d"` unroll loop registers, starting
from prefix `cnfp` at index `i` with `r` iterations left: each key extends
the previous one by `"." ++ field name ++ ".\x7b\x7b" ++ key name with "\x7bi\x7d"
replaced by the index ++ "\x7d\x7d"`. -/
def unroll_cumulative_keys (name kn : String) : String → Nat → Nat → List String
  | _, _, 0 => []
  | cnfp, i, r + 1 =>
    (cnfp ++ "." ++ name ++ ".\x7b\x7b" ++ strReplace kn "\x7bi\x7d" (toString i) ++ "\x7d\x7d") ::
      unroll_cumulative_keys name kn
        (cnfp ++ "." ++ name ++ ".\x7b\x7b" ++ strReplace kn "\x7bi\x7d" (toString i) ++ "\x7d\x7d")
        (i + 1) r

/-- Helper for C4: the generator produces one key per remaining iteration. -/
theorem unroll_cumulative_keys_length :
    ∀ (name kn cnfp : String) (i r : Nat),
      (unroll_cumulative_keys name kn cnfp i r).length = r := by
  intro name kn cnfp i r
  induction r generalizing cnfp i with
  | zero => rfl
  | succ r' ih => simp [unroll_cumulative_keys, ih]

/-- Helper for C4: inserting a fresh key appends it at the end of the
embedded dict. -/
theorem dictSetItem_fresh :
    ∀ (reg : Registry) (k : String) (it : RegEntry),
      (∀ p ∈ reg, p.1 ≠ k) → dictSetItem reg k it = reg ++ [(k, it)] := by
  intro reg k it
  induction reg with
  | nil => intro _; rfl
  | cons q rest ih =>
    obtain ⟨q1, q2⟩ := q
    intro hfresh
    have hq : q1 ≠ k := hfresh (q1, q2) (List.mem_cons_self _ _)
    simp only [dictSetItem, if_neg hq, List.cons_append, List.cons.injEq, true_and]
    exact ih fun p hp => hfresh p (List.mem_cons_of_mem _ hp)

/-- Helper for C4: the `unrollPrim` loop appends exactly the cumulative keys
to the registry, as long as the chain stays within the 32-element ceiling
(`i + r ≤ 16` at top level, where the chain at index `i` has `2*i + 2`
elements) and every existing key is shorter than the next generated key. -/
theorem unrollPrim_registry_keys :
    ∀ (r f i : Nat) (name kn : String) (it : PyType) (cd : Option PyValue)
      (cnfp : String) (cndp : List DatabasePathElement) (reg : Registry),
      cndp.length = 2 * i + 1 →
      i + r ≤ 16 →
      (∀ p ∈ reg, p.1.length <
        (cnfp ++ "." ++ name ++ ".\x7b\x7b" ++ strReplace kn "\x7bi\x7d" (toString i) ++
          "\x7d\x7d").length) →
      (compileAux (f + r + 1) (.unrollPrim name kn it cd cnfp cndp i r reg)).1.map
          Prod.fst =
        reg.map Prod.fst ++ unroll_cumulative_keys name kn cnfp i r := by
  intro r
  induction r with
  | zero =>
    intro f i name kn it cd cnfp cndp reg hlen hbound hfresh
    simp [compileAux, unroll_cumulative_keys]
  | succ r' ih =>
    intro f i name kn it cd cnfp cndp reg hlen hbound hfresh
    have hentry_len :
        ¬((cndp ++ [(⟨make_dict_key_var_name kn, it, none⟩ : DatabasePathElement)]).length > 32) := by
      simp only [List.length_append, List.length_cons, List.length_nil, hlen]
      omega
    have hne : ∀ p ∈ reg, p.1 ≠
        (cnfp ++ "." ++ name ++ ".\x7b\x7b" ++ strReplace kn "\x7bi\x7d" (toString i) ++ "\x7d\x7d") := by
      intro p hp heq
      have hlt := hfresh p hp
      rw [heq] at hlt
      omega
    have hset : fields_switch_set reg
        (cnfp ++ "." ++ name ++ ".\x7b\x7b" ++ strReplace kn "\x7bi\x7d" (toString i) ++ "\x7d\x7d")
        ⟨none, false, cndp ++ [⟨make_dict_key_var_name kn, it, none⟩], some (.vdict .nil)⟩ =
        (reg ++ [((cnfp ++ "." ++ name ++ ".\x7b\x7b" ++ strReplace kn "\x7bi\x7d" (toString i) ++ "\x7d\x7d"),
          ⟨none, false, cndp ++ [⟨make_dict_key_var_name kn, it, none⟩], some (.vdict .nil)⟩)], true) := by
      unfold fields_switch_set
      rw [if_neg hentry_len, dictSetItem_fresh reg _ _ hne]
    have hsucc : f + (r' + 1) + 1 = (f + r' + 1) + 1 := by omega
    rw [hsucc]
    simp only [compileAux, hset]
    rw [ih f (i + 1) name kn it cd _ _ _
      (by simp only [List.length_append, List.length_cons, List.length_nil, hlen]; omega)
      (by omega)
      (by
        intro p hp
        rcases List.mem_append.mp hp with hold | hnew
        · have h1 := hfresh p hold
          simp only [String.length_append] at h1 ⊢
          omega
        · rw [List.mem_singleton.mp hnew]
          have hdot : ("." : String).length = 1 := by decide
          have hob : (".\x7b\x7b" : String).length = 3 := by decide
          have hcb : ("\x7d\x7d" : String).length = 2 := by decide
          simp only [String.length_append, hdot, hob, hcb]
          omega)]
    simp [unroll_cumulative_keys, List.map_append, List.append_assoc]

/-- C4 (amended): a top-level bounded-repetition dict field (key name
containing `\x7bi\x7d`) with `maxNestedDepth = n`, for `n ≤ 16`, registers
exactly `n` map-item entries beyond the field's own entry — one per index
`0..n-1` — but their path strings are CUMULATIVE nested chains: the `j`-th
key extends the `(j-1)`-th by `"." ++ fieldName ++ ".\x7b\x7b" ++ keyName with
\x7bi\x7d replaced by j ++ "\x7d\x7d"` (so the first key already carries a leading
dot), not flat per-index siblings; there is never an extra entry. (Beyond
`n = 16` the 32-element chain ceiling starts rejecting later indexes, which
is why the claim's "exactly n" reading also needs the bound.) -/
theorem bounded_repetition_unrolls_cumulative_nested_paths :
    ∀ (n : Nat) (vk name : String) (kt it : PyType) (req : Bool) (kn : String)
      (cd : Option PyValue) (slot : Option (List DatabasePathElement)),
      strContainsSub kn "\x7bi\x7d" = true → n ≤ 16 →
      ((assign_internal_mapping_from_class (n + 2)
          (.cons vk (.dictFieldPrim name kt it req kn n cd slot) .nil)).1.map
            Prod.fst =
        name :: unroll_cumulative_keys name kn "" 0 n) ∧
      (assign_internal_mapping_from_class (n + 2)
          (.cons vk (.dictFieldPrim name kt it req kn n cd slot) .nil)).1.length =
        n + 1 := by
  intro n vk name kt it req kn cd slot hkn hn
  have hset0 : fields_switch_set [] (joinFieldPath none name)
      ⟨some name, req, [] ++ [⟨name, .pdict, cd⟩], cd⟩ =
      ([(name, ⟨some name, req, [⟨name, .pdict, cd⟩], cd⟩)], true) := by
    simp [fields_switch_set, joinFieldPath, dictSetItem]
  have hfresh : ∀ p ∈ [((name : String),
      (⟨some name, req, [⟨name, .pdict, cd⟩], cd⟩ : RegEntry))],
      p.1.length <
        (("" : String) ++ "." ++ name ++ ".\x7b\x7b" ++
          strReplace kn "\x7bi\x7d" (toString 0) ++ "\x7d\x7d").length := by
    intro p hp
    rw [List.mem_singleton.mp hp]
    have hdot : ("." : String).length = 1 := by decide
    have hob : (".\x7b\x7b" : String).length = 3 := by decide
    have hcb : ("\x7d\x7d" : String).length = 2 := by decide
    have hemp : ("" : String).length = 0 := by decide
    simp only [String.length_append, hdot, hob, hcb, hemp]
    omega
  have hloop := unrollPrim_registry_keys n 0 0 name kn it cd ""
    [⟨name, .pdict, cd⟩]
    [(name, ⟨some name, req, [⟨name, .pdict, cd⟩], cd⟩)]
    (by simp) (by omega) hfresh
  rw [Nat.zero_add] at hloop
  have hmain : (assign_internal_mapping_from_class (n + 2)
      (.cons vk (.dictFieldPrim name kt it req kn n cd slot) .nil)).1.map
        Prod.fst = name :: unroll_cumulative_keys name kn "" 0 n := by
    unfold assign_internal_mapping_from_class
    simp only [compileAux, hset0, hkn, List.nil_append, Bool.not_false, if_true]
    simp only [List.map_cons, List.map_nil, List.singleton_append] at hloop
    exact hloop
  refine ⟨hmain, ?_⟩
  have hlen := congrArg List.length hmain
  simp only [List.length_map, List.length_cons, unroll_cumulative_keys_length] at hlen
  exact hlen

/-- Witness for C4 (amended) at the spec's scenario (`slots` / `slot\x7bi\x7d`,
`maxNestedDepth = 3`): exactly 4 registry entries, the field's own plus the
three cumulative nested keys. -/
theorem bounded_repetition_unrolls_cumulative_nested_paths_witness :
    strContainsSub "slot\x7bi\x7d" "\x7bi\x7d" = true ∧
    ((assign_internal_mapping_from_class 5
        (.cons "slots" (.dictFieldPrim "slots" .pstr .pstr false "slot\x7bi\x7d" 3
          none none) .nil)).1.map Prod.fst =
      "slots" :: unroll_cumulative_keys "slots" "slot\x7bi\x7d" "" 0 3) ∧
    (assign_internal_mapping_from_class 5
        (.cons "slots" (.dictFieldPrim "slots" .pstr .pstr false "slot\x7bi\x7d" 3
          none none) .nil)).1.length = 4 :=
  ⟨by decide,
    (bounded_repetition_unrolls_cumulative_nested_paths 3 "slots" "slots" .pstr .pstr
      false "slot\x7bi\x7d" none none (by decide) (by decide)).1,
    (bounded_repetition_unrolls_cumulative_nested_paths 3 "slots" "slots" .pstr .pstr
      false "slot\x7bi\x7d" none none (by decide) (by decide)).2⟩
